import Mathlib

/-!
# native_midi_macosx.c (SDL_mixer): lifecycle of native MIDI songs

A shallow embedding of `src/native_midi/native_midi_macosx.c`.

The C file is glue around three collaborators: a byte source (`SDL_RWops`),
the Core Audio sequencing engine (`MusicPlayer`, `MusicSequence`,
`MusicTrack`) and the SDL audio device.  Every answer of a collaborator is
an explicit argument of the embedded function (an *environment* record), and
every call with an outside effect is appended to a trace of `Event`s, so that
each result holds for all behaviours of the collaborators.

Conventions
* pointers and engine handles are `Nat`, with `0` for `NULL`;
* `OSStatus` is `Int`, `noErr = 0`;
* `MusicTimeStamp` (a `Float64` in Core Audio) is modelled by `ℚ`: only the
  order comparisons of the C code are used, NaN and infinities are outside
  the model;
* `kMusicTimeStamp_EndOfTrack` comes from a system header, it is a parameter
  of `native_midi_active`;
* a failing engine constructor leaves its out-parameter untouched;
* the `MusicTrack` obtained for index `i` of a sequence is identified with
  the pair sequence, `i`;
* dereferencing a pointer that is not a live `NativeMidiSong` is undefined
  behaviour: the embedded function returns `none`.
-/

namespace NativeMidi

/-- Status code of an engine call. -/
abbrev OSStatus := Int

/-- The success status. -/
def noErr : OSStatus := 0

/-- Time stamps of the engine, in beats. -/
abbrev MusicTimeStamp := ℚ

/-- The C `struct _NativeMidiSong`. -/
structure NativeMidiSong where
  player : Nat
  sequence : Nat
  endTime : MusicTimeStamp
  deriving DecidableEq, Repr

/-- Calls with an effect outside the component, in the order they are issued.
Engine calls carry their arguments and the status the engine answered; the two
constructors also carry the handle stored in the out-parameter. -/
inductive Event where
  | free_buf (buf : Nat)
  | CFRelease (data : Nat)
  | NewMusicPlayer (status : OSStatus) (out : Nat)
  | NewMusicSequence (status : OSStatus) (out : Nat)
  | DisposeMusicSequence (sequence : Nat) (status : OSStatus)
  | DisposeMusicPlayer (player : Nat) (status : OSStatus)
  | MusicSequenceLoadSMFDataWithFlags (sequence data : Nat) (status : OSStatus)
  | MusicSequenceGetTrackCount (sequence : Nat) (status : OSStatus)
  | MusicSequenceGetIndTrack (sequence i : Nat) (status : OSStatus)
  | MusicTrackGetProperty (sequence i : Nat) (status : OSStatus)
  | MusicPlayerSetSequence (player sequence : Nat) (status : OSStatus)
  | MusicPlayerStart (player : Nat) (status : OSStatus)
  | MusicPlayerStop (player : Nat) (status : OSStatus)
  | MusicPlayerGetTime (player : Nat) (status : OSStatus)
  | SDL_PauseAudio (pause_on : Nat)
  | SDL_UnlockAudio
  | SDL_LockAudio
  deriving DecidableEq, Repr

/-- The state the component lives in: the static `currentsong`, the live
`NativeMidiSong` objects, the players the engine is running (started and not
since stopped) and the trace of calls so far. -/
structure World where
  currentsong : Nat
  heap : Nat → Option NativeMidiSong
  running : List Nat
  trace : List Event

/-- The state at program start: `currentsong = NULL`, nothing loaded, nothing
running. -/
def World.init : World :=
  { currentsong := 0, heap := fun _ => none, running := [], trace := [] }

/-- Store `v` at address `a`. -/
def heapSet (h : Nat → Option NativeMidiSong) (a : Nat) (v : Option NativeMidiSong) :
    Nat → Option NativeMidiSong :=
  fun b => if b = a then v else h b

/-- Model of the engine: a successful `MusicPlayerStart` puts the player among
the running ones, a failing one changes nothing. -/
def engineStart (running : List Nat) (p : Nat) (status : OSStatus) : List Nat :=
  if status = noErr then (if p ∈ running then running else p :: running) else running

/-- Model of the engine: a successful `MusicPlayerStop` takes the player out of
the running ones, a failing one changes nothing. -/
def engineStop (running : List Nat) (p : Nat) (status : OSStatus) : List Nat :=
  if status = noErr then running.filter (fun q => q ≠ p) else running

/-- Everything the collaborators answer during one `native_midi_loadsong_RW`. -/
structure LoadEnv where
  /-- result of `SDL_RWseek(rw, 0, RW_SEEK_END)` -/
  seekEnd : Int
  /-- result of `SDL_RWtell(rw)` -/
  tell : Int
  /-- result of `SDL_RWseek(rw, 0, RW_SEEK_SET)` -/
  seekSet : Int
  /-- result of `malloc(len)` -/
  buf : Nat
  /-- result of `SDL_RWread(rw, buf, len, 1)` -/
  read : Int
  /-- result of `malloc(sizeof(NativeMidiSong))` -/
  song : Nat
  newPlayer : OSStatus
  /-- handle stored by a successful `NewMusicPlayer` -/
  player : Nat
  newSequence : OSStatus
  /-- handle stored by a successful `NewMusicSequence` -/
  sequence : Nat
  /-- result of `CFDataCreate(NULL, buf, len)` -/
  data : Nat
  loadSMF : OSStatus
  trackCount : OSStatus
  /-- value stored by a successful `MusicSequenceGetTrackCount` -/
  ntracks : Nat
  /-- status of `MusicSequenceGetIndTrack(sequence, i, &track)` -/
  indTrack : Nat → OSStatus
  /-- status of `MusicTrackGetProperty` on track `i` -/
  trackProp : Nat → OSStatus
  /-- length stored by a successful `MusicTrackGetProperty` on track `i` -/
  tracklen : Nat → MusicTimeStamp
  setSequence : OSStatus
  disposeSequence : OSStatus
  disposePlayer : OSStatus

/-- Result of `GetSequenceLength`: the returned status, the value stored in
`*_sequenceLength` (`none` when nothing is stored) and the calls issued. -/
structure LengthResult where
  err : OSStatus
  out : Option MusicTimeStamp
  events : List Event

/-- The `for (i = 0; i < ntracks; ++i)` loop of `GetSequenceLength`, entered
with `remaining = ntracks - i` iterations to go.  The `UInt32` counter never
wraps, as `i < ntracks`. -/
def GetSequenceLength.loop (env : LoadEnv) (sequence : Nat) :
    (remaining i : Nat) → (sequenceLength : MusicTimeStamp) → LengthResult
  | 0, _, sequenceLength => { err := noErr, out := some sequenceLength, events := [] }
  | remaining + 1, i, sequenceLength =>
    let err := env.indTrack i
    if err ≠ noErr then
      { err := err, out := none, events := [.MusicSequenceGetIndTrack sequence i err] }
    else
      let err' := env.trackProp i
      if err' ≠ noErr then
        { err := err', out := none,
          events := [.MusicSequenceGetIndTrack sequence i err,
                     .MusicTrackGetProperty sequence i err'] }
      else
        let tracklen := env.tracklen i
        let sequenceLength := if sequenceLength < tracklen then tracklen else sequenceLength
        let r := GetSequenceLength.loop env sequence remaining (i + 1) sequenceLength
        { r with events := .MusicSequenceGetIndTrack sequence i err ::
                           .MusicTrackGetProperty sequence i err' :: r.events }

/-- The function `GetSequenceLength`. -/
def GetSequenceLength (env : LoadEnv) (sequence : Nat) : LengthResult :=
  let err := env.trackCount
  if err ≠ noErr then
    { err := err, out := none, events := [.MusicSequenceGetTrackCount sequence err] }
  else
    let r := GetSequenceLength.loop env sequence env.ntracks 0 0
    { r with events := .MusicSequenceGetTrackCount sequence err :: r.events }

/-- The `fail:` label of `native_midi_loadsong_RW`: `retval` is the address
and current contents of the song object when it has been allocated, `data`
and `buf` the current values of the two locals, `events` the calls issued
before the jump. -/
def loadFail (st : World) (env : LoadEnv) (retval : Option (Nat × NativeMidiSong))
    (data buf : Nat) (events : List Event) : World × Nat :=
  let disposals : List Event :=
    match retval with
    | none => []
    | some (_, s) =>
      (if s.sequence ≠ 0 then [Event.DisposeMusicSequence s.sequence env.disposeSequence]
        else []) ++
      (if s.player ≠ 0 then [Event.DisposeMusicPlayer s.player env.disposePlayer] else [])
  let heap :=
    match retval with
    | none => st.heap
    | some (a, _) => heapSet st.heap a none
  let release := if data ≠ 0 then [Event.CFRelease data] else []
  let freebuf := if buf ≠ 0 then [Event.free_buf buf] else []
  ({ st with heap := heap, trace := st.trace ++ (events ++ disposals ++ release ++ freebuf) }, 0)

/-- The function `native_midi_loadsong_RW`: the new state and the returned pointer
(`0` for `NULL`). -/
def native_midi_loadsong_RW (st : World) (env : LoadEnv) : World × Nat :=
  if env.seekEnd < 0 then loadFail st env none 0 0 []
  else
    let len := env.tell
    if len < 0 then loadFail st env none 0 0 []
    else if env.seekSet < 0 then loadFail st env none 0 0 []
    else
      let buf := env.buf
      if buf = 0 then loadFail st env none 0 buf []
      else if env.read ≠ 1 then loadFail st env none 0 buf []
      else
        let retval := env.song
        if retval = 0 then loadFail st env none 0 buf []
        else
          let s0 : NativeMidiSong := { player := 0, sequence := 0, endTime := 0 }
          let e1 := [Event.NewMusicPlayer env.newPlayer
                      (if env.newPlayer = noErr then env.player else 0)]
          if env.newPlayer ≠ noErr then loadFail st env (some (retval, s0)) 0 buf e1
          else
            let s1 := { s0 with player := env.player }
            let e2 := e1 ++ [Event.NewMusicSequence env.newSequence
                              (if env.newSequence = noErr then env.sequence else 0)]
            if env.newSequence ≠ noErr then loadFail st env (some (retval, s1)) 0 buf e2
            else
              let s2 := { s1 with sequence := env.sequence }
              let data := env.data
              if data = 0 then loadFail st env (some (retval, s2)) data buf e2
              else
                let e3 := e2 ++ [Event.free_buf buf]
                let e4 := e3 ++
                  [Event.MusicSequenceLoadSMFDataWithFlags s2.sequence data env.loadSMF]
                if env.loadSMF ≠ noErr then loadFail st env (some (retval, s2)) data 0 e4
                else
                  let e5 := e4 ++ [Event.CFRelease data]
                  let r := GetSequenceLength env s2.sequence
                  let s3 := { s2 with endTime := r.out.getD s2.endTime }
                  let e6 := e5 ++ r.events
                  if r.err ≠ noErr then loadFail st env (some (retval, s3)) 0 0 e6
                  else
                    let e7 := e6 ++
                      [Event.MusicPlayerSetSequence s3.player s3.sequence env.setSequence]
                    if env.setSequence ≠ noErr then
                      loadFail st env (some (retval, s3)) 0 0 e7
                    else
                      ({ st with heap := heapSet st.heap retval (some s3),
                                 trace := st.trace ++ e7 }, retval)

/-- Statuses the engine answers during one `native_midi_freesong`. -/
structure FreeEnv where
  stop : OSStatus
  disposeSequence : OSStatus
  disposePlayer : OSStatus

/-- The function `native_midi_freesong`.  `free(song)` removes the object from the heap. -/
def native_midi_freesong (st : World) (song : Nat) (env : FreeEnv) : Option World :=
  if song ≠ 0 then
    match st.heap song with
    | none => none
    | some s =>
      let currentsong := if st.currentsong = song then 0 else st.currentsong
      some { currentsong := currentsong,
             heap := heapSet st.heap song none,
             running := engineStop st.running s.player env.stop,
             trace := st.trace ++
               [Event.MusicPlayerStop s.player env.stop,
                Event.DisposeMusicSequence s.sequence env.disposeSequence,
                Event.DisposeMusicPlayer s.player env.disposePlayer] }
  else some st

/-- Statuses the engine answers during one `native_midi_start`. -/
structure StartEnv where
  stop : OSStatus
  start : OSStatus

/-- The function `native_midi_start`. -/
def native_midi_start (st : World) (song : Nat) (env : StartEnv) : Option World :=
  if song = 0 then some st
  else
    let e1 := [Event.SDL_PauseAudio 1, Event.SDL_UnlockAudio]
    let stopped : Option (List Nat × List Event) :=
      if st.currentsong ≠ 0 then
        match st.heap st.currentsong with
        | none => none
        | some c =>
          some (engineStop st.running c.player env.stop,
                e1 ++ [Event.MusicPlayerStop c.player env.stop])
      else some (st.running, e1)
    match stopped, st.heap song with
    | some (running, e2), some s =>
      some { currentsong := song,
             heap := st.heap,
             running := engineStart running s.player env.start,
             trace := st.trace ++ (e2 ++ [Event.MusicPlayerStart s.player env.start,
                                          Event.SDL_LockAudio, Event.SDL_PauseAudio 0]) }
    | _, _ => none

/-- The function `native_midi_stop`; `status` is what the engine answers to
`MusicPlayerStop`. -/
def native_midi_stop (st : World) (status : OSStatus) : Option World :=
  if st.currentsong ≠ 0 then
    match st.heap st.currentsong with
    | none => none
    | some c =>
      some { currentsong := 0,
             heap := st.heap,
             running := engineStop st.running c.player status,
             trace := st.trace ++
               [Event.SDL_PauseAudio 1, Event.SDL_UnlockAudio,
                Event.MusicPlayerStop c.player status,
                Event.SDL_LockAudio, Event.SDL_PauseAudio 0] }
  else some st

/-- What the engine answers to `MusicPlayerGetTime`: the status and, on
success, the time it stores. -/
structure ActiveEnv where
  status : OSStatus
  time : MusicTimeStamp

/-- The function `native_midi_active`: the new state and the returned truth value. -/
def native_midi_active (kMusicTimeStamp_EndOfTrack : MusicTimeStamp) (st : World)
    (env : ActiveEnv) : Option (World × Bool) :=
  let currentTime : MusicTimeStamp := 0
  if st.currentsong = 0 then some (st, false)
  else
    match st.heap st.currentsong with
    | none => none
    | some c =>
      let currentTime := if env.status = noErr then env.time else currentTime
      some ({ st with trace := st.trace ++ [Event.MusicPlayerGetTime c.player env.status] },
            decide (currentTime < c.endTime) || decide (currentTime ≥ kMusicTimeStamp_EndOfTrack))

/-! ## Vocabulary of the properties -/

/-- The calls issued between state `st` and the later state `st'`. -/
def newEvents (st st' : World) : List Event :=
  st'.trace.drop st.trace.length

/-- Every step of a load succeeds: the byte source is read in full, both
allocations return memory, and every engine call answers `noErr`. -/
def LoadEnv.allSucceed (env : LoadEnv) : Prop :=
  0 ≤ env.seekEnd ∧ 0 ≤ env.tell ∧ 0 ≤ env.seekSet ∧ env.buf ≠ 0 ∧ env.read = 1 ∧
  env.song ≠ 0 ∧ env.newPlayer = noErr ∧ env.newSequence = noErr ∧ env.data ≠ 0 ∧
  env.loadSMF = noErr ∧ env.trackCount = noErr ∧
  (∀ i, i < env.ntracks → env.indTrack i = noErr ∧ env.trackProp i = noErr) ∧
  env.setSequence = noErr

instance (env : LoadEnv) : Decidable env.allSucceed := by
  unfold LoadEnv.allSucceed; infer_instance

/-- The engine contract on constructors: a handle stored by a successful
`NewMusicPlayer` or `NewMusicSequence` is not `NULL`. -/
def LoadEnv.handlesValid (env : LoadEnv) : Prop :=
  (env.newPlayer = noErr → env.player ≠ 0) ∧ (env.newSequence = noErr → env.sequence ≠ 0)

instance (env : LoadEnv) : Decidable env.handlesValid := by
  unfold LoadEnv.handlesValid; infer_instance

/-- The event is a successful construction of player `p`. -/
def Event.constructsPlayer (p : Nat) : Event → Bool
  | .NewMusicPlayer status out => decide (status = noErr) && decide (out = p)
  | _ => false

/-- The event is a successful construction of sequence `s`. -/
def Event.constructsSequence (s : Nat) : Event → Bool
  | .NewMusicSequence status out => decide (status = noErr) && decide (out = s)
  | _ => false

/-- The event is a disposal of player `p`. -/
def Event.disposesPlayer (p : Nat) : Event → Bool
  | .DisposeMusicPlayer q _ => decide (q = p)
  | _ => false

/-- The event is a disposal of sequence `s`. -/
def Event.disposesSequence (s : Nat) : Event → Bool
  | .DisposeMusicSequence q _ => decide (q = s)
  | _ => false

/-- In the trace `t` no player and no sequence is constructed twice, and each
is disposed as many times as it was constructed: what was constructed is
disposed exactly once, and nothing else is disposed. -/
def Balanced (t : List Event) : Prop :=
  ∀ h : Nat,
    t.countP (Event.constructsPlayer h) ≤ 1 ∧
    t.countP (Event.disposesPlayer h) = t.countP (Event.constructsPlayer h) ∧
    t.countP (Event.constructsSequence h) ≤ 1 ∧
    t.countP (Event.disposesSequence h) = t.countP (Event.constructsSequence h)

/-- The event is one of the three queries of `GetSequenceLength`. -/
def Event.isQuery : Event → Bool
  | .MusicSequenceGetTrackCount _ _ => true
  | .MusicSequenceGetIndTrack _ _ _ => true
  | .MusicTrackGetProperty _ _ _ => true
  | _ => false

/-- The load is answered as by `LoadEnv.sample`, except that reading the length
of the second track fails with status `-50`. -/
def LoadEnv.failingTrack : LoadEnv :=
  { seekEnd := 0, tell := 64, seekSet := 0, buf := 100, read := 1, song := 200,
    newPlayer := noErr, player := 7, newSequence := noErr, sequence := 8, data := 300,
    loadSMF := noErr, trackCount := noErr, ntracks := 3,
    indTrack := fun _ => noErr, trackProp := fun i => if i = 1 then -50 else noErr,
    tracklen := fun i => if i = 0 then 96 else if i = 1 then 480 else 192,
    setSequence := noErr, disposeSequence := noErr, disposePlayer := noErr }

/-- A byte source and engine for which a load succeeds: three tracks of
lengths 96, 480 and 192 beats. -/
def LoadEnv.sample : LoadEnv :=
  { seekEnd := 0, tell := 64, seekSet := 0, buf := 100, read := 1, song := 200,
    newPlayer := noErr, player := 7, newSequence := noErr, sequence := 8, data := 300,
    loadSMF := noErr, trackCount := noErr, ntracks := 3,
    indTrack := fun _ => noErr, trackProp := fun _ => noErr,
    tracklen := fun i => if i = 0 then 96 else if i = 1 then 480 else 192,
    setSequence := noErr, disposeSequence := noErr, disposePlayer := noErr }

/-- A state with two loaded songs, at addresses 1 (player 7, sequence 8, end
time 10) and 2 (player 9, sequence 11, end time 20); song 1 is the active song
and its player is running. -/
def World.playing : World :=
  { currentsong := 1,
    heap := heapSet (heapSet (fun _ => none) 1 (some { player := 7, sequence := 8, endTime := 10 }))
      2 (some { player := 9, sequence := 11, endTime := 20 }),
    running := [7],
    trace := [] }

/-- Event `e₁` occurs in `t` before a later event `e₂`. -/
def Precedes (e₁ e₂ : Event) (t : List Event) : Prop :=
  ∃ l₁ l₂ l₃, t = l₁ ++ e₁ :: l₂ ++ e₂ :: l₃

/-- The audio-device bracket, as a scan of the trace.  `phase` is `0` outside a
bracket, `1` after `SDL_PauseAudio(1)`, `2` after `SDL_UnlockAudio()` (inside
the bracket), `3` after `SDL_LockAudio()`; `SDL_PauseAudio(0)` closes the
bracket.  `MusicPlayerStart` and `MusicPlayerStop` are accepted inside a bracket
only, the four device calls in this order only, and a trace must end outside a
bracket. -/
def bracketed : (phase : Nat) → List Event → Bool
  | phase, [] => decide (phase = 0)
  | phase, .SDL_PauseAudio pause_on :: t =>
    if phase = 0 ∧ pause_on = 1 then bracketed 1 t
    else if phase = 3 ∧ pause_on = 0 then bracketed 0 t
    else false
  | phase, .SDL_UnlockAudio :: t => if phase = 1 then bracketed 2 t else false
  | phase, .SDL_LockAudio :: t => if phase = 2 then bracketed 3 t else false
  | phase, .MusicPlayerStart _ _ :: t => if phase = 2 then bracketed phase t else false
  | phase, .MusicPlayerStop _ _ :: t => if phase = 2 then bracketed phase t else false
  | phase, _ :: t => bracketed phase t

/-- One call into the component, with what the collaborators answer. -/
inductive Op where
  | load (env : LoadEnv)
  | free (song : Nat) (env : FreeEnv)
  | start (song : Nat) (env : StartEnv)
  | stop (status : OSStatus)
  | active (env : ActiveEnv)

/-- Perform one call; `none` is undefined behaviour. -/
def step (k : MusicTimeStamp) (st : World) : Op → Option World
  | .load env => some (native_midi_loadsong_RW st env).1
  | .free song env => native_midi_freesong st song env
  | .start song env => native_midi_start st song env
  | .stop status => native_midi_stop st status
  | .active env => (native_midi_active k st env).map Prod.fst

/-- Perform a sequence of calls. -/
def run (k : MusicTimeStamp) : World → List Op → Option World
  | st, [] => some st
  | st, op :: ops => (step k st op).bind (fun st' => run k st' ops)

/-- The call is well-formed in state `st`: `malloc` returns `NULL` or an address
that is not in use, a handle passed to free or start is `NULL` or a live song,
and the engine start and stop calls the operation issues succeed. -/
def opOk (st : World) : Op → Bool
  | .load env => decide (env.song = 0) || (st.heap env.song).isNone
  | .free song env =>
    decide (song = 0) || ((st.heap song).isSome && decide (env.stop = noErr))
  | .start song env =>
    decide (song = 0) ||
      ((st.heap song).isSome && decide (env.start = noErr) &&
        (decide (st.currentsong = 0) || decide (env.stop = noErr)))
  | .stop status => decide (st.currentsong = 0) || decide (status = noErr)
  | .active _ => true

/-- Every call of the sequence is well-formed in the state it is made in. -/
def valid (k : MusicTimeStamp) : World → List Op → Bool
  | _, [] => true
  | st, op :: ops =>
    opOk st op &&
      match step k st op with
      | some st' => valid k st' ops
      | none => true

/-- The invariant of the active-song slot: `currentsong` is `NULL` or a live
song, and every running player is the player of the song in `currentsong`. -/
def Inv (st : World) : Prop :=
  (st.currentsong ≠ 0 → ∃ c, st.heap st.currentsong = some c) ∧
  st.running.Nodup ∧
  ∀ p ∈ st.running, st.currentsong ≠ 0 ∧ ∃ c, st.heap st.currentsong = some c ∧ c.player = p

/-- A second successful load: song at address 201, player 9, sequence 11. -/
def LoadEnv.sample2 : LoadEnv :=
  { seekEnd := 0, tell := 32, seekSet := 0, buf := 101, read := 1, song := 201,
    newPlayer := noErr, player := 9, newSequence := noErr, sequence := 11, data := 301,
    loadSMF := noErr, trackCount := noErr, ntracks := 1,
    indTrack := fun _ => noErr, trackProp := fun _ => noErr,
    tracklen := fun _ => 20,
    setSequence := noErr, disposeSequence := noErr, disposePlayer := noErr }

/-- A session: load two songs, start the first, poll, start the second, stop,
free both. -/
def sampleSession : List Op :=
  [.load LoadEnv.sample, .start 200 { stop := noErr, start := noErr },
   .active { status := noErr, time := 4 }, .load LoadEnv.sample2,
   .start 201 { stop := noErr, start := noErr }, .stop noErr,
   .free 200 { stop := noErr, disposeSequence := noErr, disposePlayer := noErr },
   .free 201 { stop := noErr, disposeSequence := noErr, disposePlayer := noErr }]

/-- The maximum of the lengths of the tracks `0 .. n-1`, with the value `0` of
an empty sequence as the floor. -/
def maxTrackLength (len : Nat → MusicTimeStamp) : Nat → MusicTimeStamp
  | 0 => 0
  | n + 1 => max (maxTrackLength len n) (len n)

/-- The event is a `MusicSequenceGetIndTrack` for track index `i`. -/
def Event.getsTrack (i : Nat) : Event → Bool
  | .MusicSequenceGetIndTrack _ j _ => decide (j = i)
  | _ => false

/-- The event is a `MusicTrackGetProperty` on the track of index `i`. -/
def Event.readsLength (i : Nat) : Event → Bool
  | .MusicTrackGetProperty _ j _ => decide (j = i)
  | _ => false

/-- The status the engine answered; calls that return no status count as
`noErr`. -/
def Event.status : Event → OSStatus
  | .NewMusicPlayer st _ => st
  | .NewMusicSequence st _ => st
  | .DisposeMusicSequence _ st => st
  | .DisposeMusicPlayer _ st => st
  | .MusicSequenceLoadSMFDataWithFlags _ _ st => st
  | .MusicSequenceGetTrackCount _ st => st
  | .MusicSequenceGetIndTrack _ _ st => st
  | .MusicTrackGetProperty _ _ st => st
  | .MusicPlayerSetSequence _ _ st => st
  | .MusicPlayerStart _ st => st
  | .MusicPlayerStop _ st => st
  | .MusicPlayerGetTime _ st => st
  | _ => noErr

/-- The call without what the engine answered: two events with the same
`call` are two attempts of one call. -/
def Event.call : Event → Event
  | .NewMusicPlayer _ _ => .NewMusicPlayer 0 0
  | .NewMusicSequence _ _ => .NewMusicSequence 0 0
  | .DisposeMusicSequence s _ => .DisposeMusicSequence s 0
  | .DisposeMusicPlayer p _ => .DisposeMusicPlayer p 0
  | .MusicSequenceLoadSMFDataWithFlags s d _ => .MusicSequenceLoadSMFDataWithFlags s d 0
  | .MusicSequenceGetTrackCount s _ => .MusicSequenceGetTrackCount s 0
  | .MusicSequenceGetIndTrack s i _ => .MusicSequenceGetIndTrack s i 0
  | .MusicTrackGetProperty s i _ => .MusicTrackGetProperty s i 0
  | .MusicPlayerSetSequence p s _ => .MusicPlayerSetSequence p s 0
  | .MusicPlayerStart p _ => .MusicPlayerStart p 0
  | .MusicPlayerStop p _ => .MusicPlayerStop p 0
  | .MusicPlayerGetTime p _ => .MusicPlayerGetTime p 0
  | e => e

/-- No call is attempted twice in `t`. -/
def onceEach (t : List Event) : Prop :=
  (t.map Event.call).Nodup

/-- What may follow a failed engine call: calls that are not engine calls, and
disposals of the players `ps` and sequences `ss` constructed before. -/
def okAfterFailure (ps ss : List Nat) : Event → Bool
  | .free_buf _ => true
  | .CFRelease _ => true
  | .SDL_PauseAudio _ => true
  | .SDL_UnlockAudio => true
  | .SDL_LockAudio => true
  | .DisposeMusicPlayer p _ => decide (p ∈ ps)
  | .DisposeMusicSequence s _ => decide (s ∈ ss)
  | _ => false

/-- The players `e` adds to the constructed ones. -/
def Event.newPlayers : Event → List Nat
  | .NewMusicPlayer st out => if st = noErr then [out] else []
  | _ => []

/-- The sequences `e` adds to the constructed ones. -/
def Event.newSequences : Event → List Nat
  | .NewMusicSequence st out => if st = noErr then [out] else []
  | _ => []

/-- A non-success status is fatal: after the first event of `t` with a
non-success status, `t` holds no engine call other than disposals of objects
constructed before.  The players `ps` and sequences `ss` are those constructed
before `t`: for the trace of one operation they are empty, the objects the
operation constructed itself are collected along `t`. -/
def fatalOK : (ps ss : List Nat) → List Event → Bool
  | _, _, [] => true
  | ps, ss, e :: t =>
    if e.status ≠ noErr then t.all (okAfterFailure ps ss)
    else fatalOK (ps ++ e.newPlayers) (ss ++ e.newSequences) t

/-! ## Lemmas on `GetSequenceLength` -/

theorem loop_zero (env : LoadEnv) (s i : Nat) (acc : MusicTimeStamp) :
    GetSequenceLength.loop env s 0 i acc = { err := noErr, out := some acc, events := [] } := by
  simp [GetSequenceLength.loop]

theorem loop_succ_indTrack_fails (env : LoadEnv) (s k i : Nat) (acc : MusicTimeStamp)
    (h : env.indTrack i ≠ noErr) :
    GetSequenceLength.loop env s (k + 1) i acc =
      { err := env.indTrack i, out := none,
        events := [.MusicSequenceGetIndTrack s i (env.indTrack i)] } := by
  simp [GetSequenceLength.loop, h]

theorem loop_succ_trackProp_fails (env : LoadEnv) (s k i : Nat) (acc : MusicTimeStamp)
    (h : env.indTrack i = noErr) (h' : env.trackProp i ≠ noErr) :
    GetSequenceLength.loop env s (k + 1) i acc =
      { err := env.trackProp i, out := none,
        events := [.MusicSequenceGetIndTrack s i (env.indTrack i),
                   .MusicTrackGetProperty s i (env.trackProp i)] } := by
  simp [GetSequenceLength.loop, h, h']

theorem loop_succ_ok (env : LoadEnv) (s k i : Nat) (acc : MusicTimeStamp)
    (h : env.indTrack i = noErr) (h' : env.trackProp i = noErr) :
    GetSequenceLength.loop env s (k + 1) i acc =
      { err := (GetSequenceLength.loop env s k (i + 1)
                  (if acc < env.tracklen i then env.tracklen i else acc)).err,
        out := (GetSequenceLength.loop env s k (i + 1)
                  (if acc < env.tracklen i then env.tracklen i else acc)).out,
        events := .MusicSequenceGetIndTrack s i noErr :: .MusicTrackGetProperty s i noErr ::
          (GetSequenceLength.loop env s k (i + 1)
            (if acc < env.tracklen i then env.tracklen i else acc)).events } := by
  simp [GetSequenceLength.loop, h, h']

theorem loop_events_isQuery (env : LoadEnv) (s : Nat) (k i : Nat) (acc : MusicTimeStamp) :
    ∀ e ∈ (GetSequenceLength.loop env s k i acc).events, e.isQuery = true := by
  induction k generalizing i acc with
  | zero => simp [loop_zero]
  | succ k ih =>
    intro e he
    by_cases h1 : env.indTrack i = noErr
    · by_cases h2 : env.trackProp i = noErr
      · rw [loop_succ_ok env s k i acc h1 h2] at he
        simp only [List.mem_cons] at he
        rcases he with he | he | he
        · subst he; rfl
        · subst he; rfl
        · exact ih _ _ e he
      · rw [loop_succ_trackProp_fails env s k i acc h1 h2] at he
        simp at he; rcases he with he | he <;> subst he <;> rfl
    · rw [loop_succ_indTrack_fails env s k i acc h1] at he
      simp at he; subst he; rfl

theorem GetSequenceLength_events_isQuery (env : LoadEnv) (s : Nat) :
    ∀ e ∈ (GetSequenceLength env s).events, e.isQuery = true := by
  intro e he
  unfold GetSequenceLength at he
  simp only [] at he
  split_ifs at he with h
  · simp at he; subst he; rfl
  · simp only [List.mem_cons] at he
    rcases he with he | he
    · subst he; rfl
    · exact loop_events_isQuery env s _ _ _ e he

theorem loop_err_noErr_iff (env : LoadEnv) (s : Nat) (k i : Nat) (acc : MusicTimeStamp) :
    (GetSequenceLength.loop env s k i acc).err = noErr ↔
      ∀ j, j < k → env.indTrack (i + j) = noErr ∧ env.trackProp (i + j) = noErr := by
  induction k generalizing i acc with
  | zero => simp [loop_zero]
  | succ k ih =>
    by_cases h1 : env.indTrack i = noErr
    · by_cases h2 : env.trackProp i = noErr
      · rw [loop_succ_ok env s k i acc h1 h2]
        simp only [ih]
        constructor
        · intro hall j hj
          cases j with
          | zero => exact ⟨by simpa using h1, by simpa using h2⟩
          | succ j =>
            have := hall j (Nat.lt_of_succ_lt_succ hj)
            have e : i + (j + 1) = i + 1 + j := by omega
            rw [e]; exact this
        · intro hall j hj
          have := hall (j + 1) (Nat.succ_lt_succ hj)
          have e : i + (j + 1) = i + 1 + j := by omega
          rw [e] at this; exact this
      · rw [loop_succ_trackProp_fails env s k i acc h1 h2]
        simp only [h2, false_iff]
        intro hall
        exact h2 (by simpa using (hall 0 (Nat.succ_pos k)).2)
    · rw [loop_succ_indTrack_fails env s k i acc h1]
      simp only [h1, false_iff]
      intro hall
      exact h1 (by simpa using (hall 0 (Nat.succ_pos k)).1)

theorem GetSequenceLength_err_noErr_iff (env : LoadEnv) (s : Nat) :
    (GetSequenceLength env s).err = noErr ↔
      env.trackCount = noErr ∧
      ∀ i, i < env.ntracks → env.indTrack i = noErr ∧ env.trackProp i = noErr := by
  unfold GetSequenceLength
  simp only []
  split_ifs with h
  · simp [h]
  · have h' : env.trackCount = noErr := not_not.mp h
    simp [h', loop_err_noErr_iff]

/-! ## The outcomes of `native_midi_loadsong_RW` -/

theorem load_ok (st : World) (env : LoadEnv) (h : env.allSucceed) :
    native_midi_loadsong_RW st env =
      ({ st with
          heap := heapSet st.heap env.song
            (some { player := env.player, sequence := env.sequence,
                    endTime := ((GetSequenceLength env env.sequence).out).getD 0 }),
          trace := st.trace ++
            ([Event.NewMusicPlayer noErr env.player, Event.NewMusicSequence noErr env.sequence,
              Event.free_buf env.buf,
              Event.MusicSequenceLoadSMFDataWithFlags env.sequence env.data noErr,
              Event.CFRelease env.data] ++ (GetSequenceLength env env.sequence).events ++
             [Event.MusicPlayerSetSequence env.player env.sequence noErr]) }, env.song) := by
  obtain ⟨h1, h2, h3, h4, h5, h6, h7, h8, h9, h10, h11, h12, h13⟩ := h
  have hg : (GetSequenceLength env env.sequence).err = noErr :=
    (GetSequenceLength_err_noErr_iff env env.sequence).2 ⟨h11, h12⟩
  simp [native_midi_loadsong_RW, not_lt.mpr h1, not_lt.mpr h2, not_lt.mpr h3, h4, h5, h6, h7,
    h8, h9, h10, h13, hg]

/-- The calls of a failing load, by the step that fails. -/
theorem load_fail_shape (st : World) (env : LoadEnv) (hvalid : env.handlesValid)
    (hfail : ¬ env.allSucceed) :
    (native_midi_loadsong_RW st env).2 = 0 ∧
    (native_midi_loadsong_RW st env).1.currentsong = st.currentsong ∧
    (native_midi_loadsong_RW st env).1.running = st.running ∧
    (newEvents st (native_midi_loadsong_RW st env).1 = [] ∨
     newEvents st (native_midi_loadsong_RW st env).1 = [Event.free_buf env.buf] ∨
     (env.newPlayer ≠ noErr ∧ newEvents st (native_midi_loadsong_RW st env).1 =
        [Event.NewMusicPlayer env.newPlayer 0, Event.free_buf env.buf]) ∨
     (env.newSequence ≠ noErr ∧ newEvents st (native_midi_loadsong_RW st env).1 =
        [Event.NewMusicPlayer noErr env.player, Event.NewMusicSequence env.newSequence 0,
         Event.DisposeMusicPlayer env.player env.disposePlayer, Event.free_buf env.buf]) ∨
     newEvents st (native_midi_loadsong_RW st env).1 =
        [Event.NewMusicPlayer noErr env.player, Event.NewMusicSequence noErr env.sequence,
         Event.DisposeMusicSequence env.sequence env.disposeSequence,
         Event.DisposeMusicPlayer env.player env.disposePlayer, Event.free_buf env.buf] ∨
     (env.loadSMF ≠ noErr ∧ newEvents st (native_midi_loadsong_RW st env).1 =
        [Event.NewMusicPlayer noErr env.player, Event.NewMusicSequence noErr env.sequence,
         Event.free_buf env.buf,
         Event.MusicSequenceLoadSMFDataWithFlags env.sequence env.data env.loadSMF,
         Event.DisposeMusicSequence env.sequence env.disposeSequence,
         Event.DisposeMusicPlayer env.player env.disposePlayer, Event.CFRelease env.data]) ∨
     ((GetSequenceLength env env.sequence).err ≠ noErr ∧
      newEvents st (native_midi_loadsong_RW st env).1 =
        [Event.NewMusicPlayer noErr env.player, Event.NewMusicSequence noErr env.sequence,
         Event.free_buf env.buf,
         Event.MusicSequenceLoadSMFDataWithFlags env.sequence env.data noErr,
         Event.CFRelease env.data] ++ (GetSequenceLength env env.sequence).events ++
        [Event.DisposeMusicSequence env.sequence env.disposeSequence,
         Event.DisposeMusicPlayer env.player env.disposePlayer]) ∨
     ((GetSequenceLength env env.sequence).err = noErr ∧ env.setSequence ≠ noErr ∧
      newEvents st (native_midi_loadsong_RW st env).1 =
        [Event.NewMusicPlayer noErr env.player, Event.NewMusicSequence noErr env.sequence,
         Event.free_buf env.buf,
         Event.MusicSequenceLoadSMFDataWithFlags env.sequence env.data noErr,
         Event.CFRelease env.data] ++ (GetSequenceLength env env.sequence).events ++
        [Event.MusicPlayerSetSequence env.player env.sequence env.setSequence,
         Event.DisposeMusicSequence env.sequence env.disposeSequence,
         Event.DisposeMusicPlayer env.player env.disposePlayer])) := by
  obtain ⟨hp, hs⟩ := hvalid
  by_cases h1 : env.seekEnd < 0
  · simp [native_midi_loadsong_RW, loadFail, h1, newEvents]
  by_cases h2 : env.tell < 0
  · simp [native_midi_loadsong_RW, loadFail, h1, h2, newEvents]
  by_cases h3 : env.seekSet < 0
  · simp [native_midi_loadsong_RW, loadFail, h1, h2, h3, newEvents]
  by_cases h4 : env.buf = 0
  · simp [native_midi_loadsong_RW, loadFail, h1, h2, h3, h4, newEvents]
  by_cases h5 : env.read = 1
  swap
  · simp [native_midi_loadsong_RW, loadFail, h1, h2, h3, h4, h5, newEvents]
  by_cases h6 : env.song = 0
  · simp [native_midi_loadsong_RW, loadFail, h1, h2, h3, h4, h5, h6, newEvents]
  by_cases h7 : env.newPlayer = noErr
  swap
  · simp [native_midi_loadsong_RW, loadFail, h1, h2, h3, h4, h5, h6, h7, newEvents]
  have hp' := hp h7
  by_cases h8 : env.newSequence = noErr
  swap
  · simp [native_midi_loadsong_RW, loadFail, h1, h2, h3, h4, h5, h6, h7, h8, hp', newEvents]
  have hs' := hs h8
  by_cases h9 : env.data = 0
  · simp [native_midi_loadsong_RW, loadFail, h1, h2, h3, h4, h5, h6, h7, h8, h9, hp', hs',
      newEvents]
  by_cases h10 : env.loadSMF = noErr
  swap
  · simp [native_midi_loadsong_RW, loadFail, h1, h2, h3, h4, h5, h6, h7, h8, h9, h10, hp', hs',
      newEvents]
  by_cases h11 : (GetSequenceLength env env.sequence).err = noErr
  swap
  · simp [native_midi_loadsong_RW, loadFail, h1, h2, h3, h4, h5, h6, h7, h8, h9, h10, h11, hp',
      hs', newEvents]
  by_cases h13 : env.setSequence = noErr
  swap
  · simp [native_midi_loadsong_RW, loadFail, h1, h2, h3, h4, h5, h6, h7, h8, h9, h10, h11, h13,
      hp', hs', newEvents]
  exfalso
  apply hfail
  have hg := (GetSequenceLength_err_noErr_iff env env.sequence).1 h11
  exact ⟨not_lt.mp h1, not_lt.mp h2, not_lt.mp h3, h4, h5, h6, h7, h8, h9, h10, hg.1, hg.2, h13⟩

theorem countP_queries_eq_zero (p : Event → Bool) (l : List Event)
    (hq : ∀ e ∈ l, e.isQuery = true) (hp : ∀ e, e.isQuery = true → p e = false) :
    l.countP p = 0 := by
  rw [List.countP_eq_zero]
  intro e he
  simp [hp e (hq e he)]

theorem countP_GetSequenceLength (env : LoadEnv) (s h : Nat) :
    (GetSequenceLength env s).events.countP (Event.constructsPlayer h) = 0 ∧
    (GetSequenceLength env s).events.countP (Event.disposesPlayer h) = 0 ∧
    (GetSequenceLength env s).events.countP (Event.constructsSequence h) = 0 ∧
    (GetSequenceLength env s).events.countP (Event.disposesSequence h) = 0 := by
  have hq := GetSequenceLength_events_isQuery env s
  refine ⟨?_, ?_, ?_, ?_⟩ <;>
  · apply countP_queries_eq_zero _ _ hq
    intro e he
    cases e <;> simp_all [Event.isQuery, Event.constructsPlayer, Event.disposesPlayer,
      Event.constructsSequence, Event.disposesSequence]

/-- C1: whatever step of `native_midi_loadsong_RW` fails (byte source,
allocation or engine call, the per-track queries included), the load returns
`NULL` and, in the calls it issued, every player and every sequence that was
constructed has been disposed exactly once. -/
theorem loadsong_failure_disposes_constructed (st : World) (env : LoadEnv)
    (hvalid : env.handlesValid) (hfail : ¬ env.allSucceed) :
    (native_midi_loadsong_RW st env).2 = 0 ∧
    Balanced (newEvents st (native_midi_loadsong_RW st env).1) ∧
    (∀ h, Event.NewMusicPlayer noErr h ∈ newEvents st (native_midi_loadsong_RW st env).1 →
      (newEvents st (native_midi_loadsong_RW st env).1).countP (Event.disposesPlayer h) = 1) ∧
    (∀ h, Event.NewMusicSequence noErr h ∈ newEvents st (native_midi_loadsong_RW st env).1 →
      (newEvents st (native_midi_loadsong_RW st env).1).countP
        (Event.disposesSequence h) = 1) := by
  obtain ⟨hret, -, -, hshape⟩ := load_fail_shape st env hvalid hfail
  refine ⟨hret, ?_⟩
  have hq := GetSequenceLength_events_isQuery env env.sequence
  have hnp : ∀ h, Event.NewMusicPlayer noErr h ∉ (GetSequenceLength env env.sequence).events :=
    fun h hm => by simpa [Event.isQuery] using hq _ hm
  have hns : ∀ h, Event.NewMusicSequence noErr h ∉ (GetSequenceLength env env.sequence).events :=
    fun h hm => by simpa [Event.isQuery] using hq _ hm
  have hc := countP_GetSequenceLength env env.sequence
  generalize newEvents st (native_midi_loadsong_RW st env).1 = t at hshape
  clear hret hq hfail hvalid
  rcases hshape with h | h | ⟨hne, h⟩ | ⟨hne, h⟩ | h | ⟨hne, h⟩ | ⟨hne, h⟩ | ⟨-, hne, h⟩ <;>
    subst h <;> refine ⟨fun x => ?_, fun x => ?_, fun x => ?_⟩ <;>
    simp [List.countP_cons, Event.constructsPlayer, Event.disposesPlayer,
      Event.constructsSequence, Event.disposesSequence, hc, hnp, hns] <;>
    first
      | done
      | (intro hx; simp [hx])
      | (intro hx; exact absurd hx.symm hne)
      | (split_ifs <;> simp_all)

theorem loadsong_failure_disposes_constructed_witness :
    (native_midi_loadsong_RW World.init LoadEnv.failingTrack).2 = 0 ∧
    Balanced (newEvents World.init (native_midi_loadsong_RW World.init LoadEnv.failingTrack).1) ∧
    (∀ h, Event.NewMusicPlayer noErr h ∈
        newEvents World.init (native_midi_loadsong_RW World.init LoadEnv.failingTrack).1 →
      (newEvents World.init (native_midi_loadsong_RW World.init LoadEnv.failingTrack).1).countP
        (Event.disposesPlayer h) = 1) ∧
    (∀ h, Event.NewMusicSequence noErr h ∈
        newEvents World.init (native_midi_loadsong_RW World.init LoadEnv.failingTrack).1 →
      (newEvents World.init (native_midi_loadsong_RW World.init LoadEnv.failingTrack).1).countP
        (Event.disposesSequence h) = 1) :=
  loadsong_failure_disposes_constructed World.init LoadEnv.failingTrack (by decide) (by decide)

theorem load_ret_ne_zero_iff (st : World) (env : LoadEnv) :
    (native_midi_loadsong_RW st env).2 ≠ 0 ↔ env.allSucceed := by
  constructor
  · intro hret
    by_contra hfail
    apply hret
    by_cases h1 : env.seekEnd < 0
    · simp [native_midi_loadsong_RW, loadFail, h1]
    by_cases h2 : env.tell < 0
    · simp [native_midi_loadsong_RW, loadFail, h1, h2]
    by_cases h3 : env.seekSet < 0
    · simp [native_midi_loadsong_RW, loadFail, h1, h2, h3]
    by_cases h4 : env.buf = 0
    · simp [native_midi_loadsong_RW, loadFail, h1, h2, h3, h4]
    by_cases h5 : env.read = 1
    swap
    · simp [native_midi_loadsong_RW, loadFail, h1, h2, h3, h4, h5]
    by_cases h6 : env.song = 0
    · simp [native_midi_loadsong_RW, loadFail, h1, h2, h3, h4, h5, h6]
    by_cases h7 : env.newPlayer = noErr
    swap
    · simp [native_midi_loadsong_RW, loadFail, h1, h2, h3, h4, h5, h6, h7]
    by_cases h8 : env.newSequence = noErr
    swap
    · simp [native_midi_loadsong_RW, loadFail, h1, h2, h3, h4, h5, h6, h7, h8]
    by_cases h9 : env.data = 0
    · simp [native_midi_loadsong_RW, loadFail, h1, h2, h3, h4, h5, h6, h7, h8, h9]
    by_cases h10 : env.loadSMF = noErr
    swap
    · simp [native_midi_loadsong_RW, loadFail, h1, h2, h3, h4, h5, h6, h7, h8, h9, h10]
    by_cases h11 : (GetSequenceLength env env.sequence).err = noErr
    swap
    · simp [native_midi_loadsong_RW, loadFail, h1, h2, h3, h4, h5, h6, h7, h8, h9, h10, h11]
    by_cases h13 : env.setSequence = noErr
    swap
    · simp [native_midi_loadsong_RW, loadFail, h1, h2, h3, h4, h5, h6, h7, h8, h9, h10, h11, h13]
    exfalso
    apply hfail
    have hg := (GetSequenceLength_err_noErr_iff env env.sequence).1 h11
    exact ⟨not_lt.mp h1, not_lt.mp h2, not_lt.mp h3, h4, h5, h6, h7, h8, h9, h10, hg.1, hg.2,
      h13⟩
  · intro h
    rw [load_ok st env h]
    exact h.2.2.2.2.2.1

/-- C2: a successful `native_midi_loadsong_RW` followed by one
`native_midi_freesong` of the returned handle issues exactly one successful
construct-player and exactly one dispose-player, both for the same player, and
exactly one successful construct-sequence and exactly one dispose-sequence, both
for the same sequence. -/
theorem load_then_free_pairs_construct_dispose (st : World) (env : LoadEnv) (fenv : FreeEnv)
    (hload : (native_midi_loadsong_RW st env).2 ≠ 0) :
    ∃ st', native_midi_freesong (native_midi_loadsong_RW st env).1
        (native_midi_loadsong_RW st env).2 fenv = some st' ∧
      ∀ h,
        (newEvents st st').countP (Event.constructsPlayer h) = (if h = env.player then 1 else 0) ∧
        (newEvents st st').countP (Event.disposesPlayer h) = (if h = env.player then 1 else 0) ∧
        (newEvents st st').countP (Event.constructsSequence h) =
          (if h = env.sequence then 1 else 0) ∧
        (newEvents st st').countP (Event.disposesSequence h) =
          (if h = env.sequence then 1 else 0) := by
  have hall := (load_ret_ne_zero_iff st env).1 hload
  have hsong : env.song ≠ 0 := hall.2.2.2.2.2.1
  rw [load_ok st env hall]
  refine ⟨_, by simp [native_midi_freesong, heapSet, hsong]; rfl, ?_⟩
  intro h
  have hc := countP_GetSequenceLength env env.sequence h
  simp [newEvents, List.countP_cons, List.countP_append, Event.constructsPlayer,
    Event.disposesPlayer, Event.constructsSequence, Event.disposesSequence, hc, eq_comm]

theorem load_then_free_pairs_construct_dispose_witness :
    ∃ st', native_midi_freesong (native_midi_loadsong_RW World.init LoadEnv.sample).1
        (native_midi_loadsong_RW World.init LoadEnv.sample).2
        { stop := noErr, disposeSequence := noErr, disposePlayer := noErr } = some st' ∧
      ∀ h,
        (newEvents World.init st').countP (Event.constructsPlayer h) =
          (if h = LoadEnv.sample.player then 1 else 0) ∧
        (newEvents World.init st').countP (Event.disposesPlayer h) =
          (if h = LoadEnv.sample.player then 1 else 0) ∧
        (newEvents World.init st').countP (Event.constructsSequence h) =
          (if h = LoadEnv.sample.sequence then 1 else 0) ∧
        (newEvents World.init st').countP (Event.disposesSequence h) =
          (if h = LoadEnv.sample.sequence then 1 else 0) :=
  load_then_free_pairs_construct_dispose World.init LoadEnv.sample
    { stop := noErr, disposeSequence := noErr, disposePlayer := noErr } (by decide)

/-! ## Start, stop, free and active -/

/-- C3: when song `A` is the active song, `native_midi_start(B)` issues a
stop-player on the player of `A` before the start-player on the player of `B`,
and leaves `currentsong` equal to `B`. -/
theorem start_stops_active_song_first (st : World) (A B : Nat) (a b : NativeMidiSong)
    (env : StartEnv) (hA : A ≠ 0) (hB : B ≠ 0) (ha : st.heap A = some a)
    (hb : st.heap B = some b) (hcur : st.currentsong = A) :
    ∃ st', native_midi_start st B env = some st' ∧
      newEvents st st' =
        [Event.SDL_PauseAudio 1, Event.SDL_UnlockAudio, Event.MusicPlayerStop a.player env.stop,
         Event.MusicPlayerStart b.player env.start, Event.SDL_LockAudio,
         Event.SDL_PauseAudio 0] ∧
      Precedes (Event.MusicPlayerStop a.player env.stop)
        (Event.MusicPlayerStart b.player env.start) (newEvents st st') ∧
      st'.currentsong = B := by
  subst hcur
  refine ⟨_, by simp [native_midi_start, hA, hB, ha, hb]; rfl, ?_, ?_, rfl⟩
  · simp [newEvents]
  · exact ⟨[Event.SDL_PauseAudio 1, Event.SDL_UnlockAudio], [],
      [Event.SDL_LockAudio, Event.SDL_PauseAudio 0], by simp [newEvents]⟩

theorem start_stops_active_song_first_witness :
    ∃ st', native_midi_start World.playing 2 { stop := noErr, start := noErr } = some st' ∧
      newEvents World.playing st' =
        [Event.SDL_PauseAudio 1, Event.SDL_UnlockAudio, Event.MusicPlayerStop 7 noErr,
         Event.MusicPlayerStart 9 noErr, Event.SDL_LockAudio, Event.SDL_PauseAudio 0] ∧
      Precedes (Event.MusicPlayerStop 7 noErr) (Event.MusicPlayerStart 9 noErr)
        (newEvents World.playing st') ∧
      st'.currentsong = 2 :=
  start_stops_active_song_first World.playing 1 2 { player := 7, sequence := 8, endTime := 10 }
    { player := 9, sequence := 11, endTime := 20 } { stop := noErr, start := noErr }
    (by decide) (by decide) (by decide) (by decide) rfl

/-- C4, as the code has it: without an active song `native_midi_active` returns
false; with an active song `c` whose player reports the time `env.time`, it
returns true exactly when that time is strictly less than the cached end time or
is greater than or equal to the end-of-track sentinel `k`. -/
theorem active_iff_before_end_or_at_least_sentinel (k : MusicTimeStamp) (st : World)
    (env : ActiveEnv) (c : NativeMidiSong)
    (hc : st.currentsong ≠ 0 → st.heap st.currentsong = some c ∧ env.status = noErr) :
    ∃ st' b, native_midi_active k st env = some (st', b) ∧
      (b = true ↔ st.currentsong ≠ 0 ∧ (env.time < c.endTime ∨ k ≤ env.time)) := by
  by_cases hcur : st.currentsong = 0
  · exact ⟨st, false, by simp [native_midi_active, hcur], by simp [hcur]⟩
  · obtain ⟨hc1, hc2⟩ := hc hcur
    exact ⟨_, _, by simp only [native_midi_active, hcur, hc1, hc2, if_true, if_false]; rfl,
      by simp [hcur]⟩

theorem active_iff_before_end_or_at_least_sentinel_witness :
    ∃ st' b, native_midi_active 1000000000 World.playing { status := noErr, time := 4 } =
        some (st', b) ∧
      (b = true ↔ World.playing.currentsong ≠ 0 ∧
        (({ status := noErr, time := 4 } : ActiveEnv).time <
            ({ player := 7, sequence := 8, endTime := 10 } : NativeMidiSong).endTime ∨
          1000000000 ≤ ({ status := noErr, time := 4 } : ActiveEnv).time)) :=
  active_iff_before_end_or_at_least_sentinel 1000000000 World.playing
    { status := noErr, time := 4 } { player := 7, sequence := 8, endTime := 10 }
    (fun _ => ⟨by decide, rfl⟩)

/-- C4 as stated fails: with the sentinel at 1000000000 beats and a cached end
time of 10, a reported time of 1000000001 is neither below the end time nor
equal to the sentinel, and `native_midi_active` returns true. -/
theorem active_true_beyond_sentinel :
    (native_midi_active 1000000000 World.playing { status := noErr, time := 1000000001 }).map
        Prod.snd = some true ∧
    World.playing.heap World.playing.currentsong =
      some { player := 7, sequence := 8, endTime := 10 } ∧
    ¬ ((1000000001 : MusicTimeStamp) < 10 ∨ (1000000001 : MusicTimeStamp) = 1000000000) := by
  decide

/-- C5: freeing the active song empties the active-song slot, and the next
`native_midi_active` returns false without consulting the engine, whatever time
the engine would report. -/
theorem freesong_active_clears_slot (k : MusicTimeStamp) (st : World) (h : Nat)
    (c : NativeMidiSong) (fenv : FreeEnv) (hh : h ≠ 0) (hlive : st.heap h = some c)
    (hcur : st.currentsong = h) :
    ∃ st', native_midi_freesong st h fenv = some st' ∧ st'.currentsong = 0 ∧
      ∀ aenv : ActiveEnv, native_midi_active k st' aenv = some (st', false) := by
  refine ⟨_, by simp [native_midi_freesong, hh, hlive, hcur]; rfl, ?_, ?_⟩
  · simp
  · intro aenv
    simp [native_midi_active]

theorem freesong_active_clears_slot_witness :
    ∃ st', native_midi_freesong World.playing 1
        { stop := noErr, disposeSequence := noErr, disposePlayer := noErr } = some st' ∧
      st'.currentsong = 0 ∧
      ∀ aenv : ActiveEnv, native_midi_active 1000000000 st' aenv = some (st', false) :=
  freesong_active_clears_slot 1000000000 World.playing 1
    { player := 7, sequence := 8, endTime := 10 }
    { stop := noErr, disposeSequence := noErr, disposePlayer := noErr }
    (by decide) (by decide) rfl

/-- C6: with no active song `native_midi_stop` returns the state it was given:
no engine call, no audio-device call, and `currentsong`, the song objects and
the engine state are unchanged. -/
theorem stop_without_active_song_is_noop (st : World) (status : OSStatus)
    (h : st.currentsong = 0) :
    native_midi_stop st status = some st ∧ newEvents st st = [] := by
  simp [native_midi_stop, h, newEvents]

theorem stop_without_active_song_is_noop_witness :
    native_midi_stop World.init noErr = some World.init ∧
      newEvents World.init World.init = [] :=
  stop_without_active_song_is_noop World.init noErr rfl

/-- The calls of `native_midi_start` respect the audio-device bracket. -/
theorem start_bracketed (st st' : World) (song : Nat) (env : StartEnv)
    (h : native_midi_start st song env = some st') : bracketed 0 (newEvents st st') = true := by
  unfold native_midi_start at h
  by_cases hs : song = 0
  · simp [hs] at h; subst h; simp [newEvents, bracketed]
  · by_cases hc : st.currentsong = 0
    · cases hb : st.heap song with
      | none => simp [hs, hc, hb] at h
      | some b =>
        simp [hs, hc, hb] at h; subst h; simp [newEvents, bracketed]
    · cases ha : st.heap st.currentsong with
      | none => simp [hs, hc, ha] at h
      | some a =>
        cases hb : st.heap song with
        | none => simp [hs, hc, ha, hb] at h
        | some b =>
          simp [hs, hc, ha, hb] at h; subst h; simp [newEvents, bracketed]

/-- The calls of `native_midi_stop` respect the audio-device bracket. -/
theorem stop_bracketed (st st' : World) (status : OSStatus)
    (h : native_midi_stop st status = some st') : bracketed 0 (newEvents st st') = true := by
  unfold native_midi_stop at h
  by_cases hc : st.currentsong = 0
  · simp [hc] at h; subst h; simp [newEvents, bracketed]
  · cases ha : st.heap st.currentsong with
    | none => simp [hc, ha] at h
    | some a => simp [hc, ha] at h; subst h; simp [newEvents, bracketed]

/-- C7 fails in `native_midi_freesong`: freeing song 1 of `World.playing` issues
`MusicPlayerStop` on its player with no audio-device call around it, so the
trace of the operation is not bracketed. -/
theorem freesong_stops_player_outside_bracket :
    (native_midi_freesong World.playing 1
        { stop := noErr, disposeSequence := noErr, disposePlayer := noErr }).map
      (newEvents World.playing) =
      some [Event.MusicPlayerStop 7 noErr, Event.DisposeMusicSequence 8 noErr,
            Event.DisposeMusicPlayer 7 noErr] ∧
    (native_midi_freesong World.playing 1
        { stop := noErr, disposeSequence := noErr, disposePlayer := noErr }).map
      (fun st' => bracketed 0 (newEvents World.playing st')) = some false := by
  decide

/-! ## The active-song invariant -/

theorem load_frame (st : World) (env : LoadEnv) :
    (native_midi_loadsong_RW st env).1.currentsong = st.currentsong ∧
    (native_midi_loadsong_RW st env).1.running = st.running ∧
    ∀ a, (env.song = 0 ∨ a ≠ env.song) →
      (native_midi_loadsong_RW st env).1.heap a = st.heap a := by
  by_cases h1 : env.seekEnd < 0
  · simp [native_midi_loadsong_RW, loadFail, h1]
  by_cases h2 : env.tell < 0
  · simp [native_midi_loadsong_RW, loadFail, h1, h2]
  by_cases h3 : env.seekSet < 0
  · simp [native_midi_loadsong_RW, loadFail, h1, h2, h3]
  by_cases h4 : env.buf = 0
  · simp [native_midi_loadsong_RW, loadFail, h1, h2, h3, h4]
  by_cases h5 : env.read = 1
  swap
  · simp [native_midi_loadsong_RW, loadFail, h1, h2, h3, h4, h5]
  by_cases h6 : env.song = 0
  · simp [native_midi_loadsong_RW, loadFail, h1, h2, h3, h4, h5, h6]
  have hheap : ∀ v a, (env.song = 0 ∨ a ≠ env.song) → heapSet st.heap env.song v a = st.heap a := by
    intro v a ha
    rcases ha with ha | ha
    · exact absurd ha h6
    · simp [heapSet, ha]
  by_cases h7 : env.newPlayer = noErr
  swap
  · simpa [native_midi_loadsong_RW, loadFail, h1, h2, h3, h4, h5, h6, h7] using hheap none
  by_cases h8 : env.newSequence = noErr
  swap
  · simpa [native_midi_loadsong_RW, loadFail, h1, h2, h3, h4, h5, h6, h7, h8] using hheap none
  by_cases h9 : env.data = 0
  · simpa [native_midi_loadsong_RW, loadFail, h1, h2, h3, h4, h5, h6, h7, h8, h9] using hheap none
  by_cases h10 : env.loadSMF = noErr
  swap
  · simpa [native_midi_loadsong_RW, loadFail, h1, h2, h3, h4, h5, h6, h7, h8, h9, h10]
      using hheap none
  by_cases h11 : (GetSequenceLength env env.sequence).err = noErr
  swap
  · simpa [native_midi_loadsong_RW, loadFail, h1, h2, h3, h4, h5, h6, h7, h8, h9, h10, h11]
      using hheap none
  by_cases h13 : env.setSequence = noErr
  swap
  · simpa [native_midi_loadsong_RW, loadFail, h1, h2, h3, h4, h5, h6, h7, h8, h9, h10, h11, h13]
      using hheap none
  simpa [native_midi_loadsong_RW, loadFail, h1, h2, h3, h4, h5, h6, h7, h8, h9, h10, h11, h13]
      using hheap _

theorem length_le_one_of_nodup_of_all_eq (l : List Nat) (hn : l.Nodup)
    (h : ∀ x ∈ l, ∀ y ∈ l, x = y) : l.length ≤ 1 := by
  match l, hn, h with
  | [], _, _ => simp
  | [_], _, _ => simp
  | a :: b :: t, hn, h =>
    have hab : a = b := h a (by simp) b (by simp)
    subst hab
    simp at hn

theorem Inv_init : Inv World.init := by
  simp [Inv, World.init]

theorem Inv_load (st : World) (env : LoadEnv) (hinv : Inv st)
    (hok : opOk st (.load env) = true) : Inv (native_midi_loadsong_RW st env).1 := by
  obtain ⟨hcur, hrun, hheap⟩ := load_frame st env
  obtain ⟨i1, i2, i3⟩ := hinv
  have hkeep : st.currentsong ≠ 0 →
      (native_midi_loadsong_RW st env).1.heap st.currentsong = st.heap st.currentsong := by
    intro hne
    apply hheap
    simp only [opOk, Bool.or_eq_true, decide_eq_true_eq, Option.isNone_iff_eq_none] at hok
    rcases hok with hok | hok
    · exact Or.inl hok
    · right
      intro heq
      obtain ⟨c, hc⟩ := i1 hne
      rw [heq, hok] at hc
      cases hc
  refine ⟨?_, ?_, ?_⟩
  · rw [hcur]; intro hne; rw [hkeep hne]; exact i1 hne
  · rw [hrun]; exact i2
  · rw [hrun, hcur]; intro p hp
    obtain ⟨hne, c, hc, hcp⟩ := i3 p hp
    exact ⟨hne, c, by rw [hkeep hne]; exact hc, hcp⟩

theorem Inv_free (st : World) (song : Nat) (env : FreeEnv) (hinv : Inv st)
    (hok : opOk st (.free song env) = true) :
    ∃ st', native_midi_freesong st song env = some st' ∧ Inv st' := by
  obtain ⟨i1, i2, i3⟩ := hinv
  by_cases hs : song = 0
  · exact ⟨st, by simp [native_midi_freesong, hs], i1, i2, i3⟩
  simp only [opOk, hs, decide_False, Bool.false_or, Bool.and_eq_true, decide_eq_true_eq,
    Option.isSome_iff_exists] at hok
  obtain ⟨⟨s, hsome⟩, hstop⟩ := hok
  refine ⟨_, by simp only [native_midi_freesong, hs, hsome, ne_eq, not_false_eq_true, if_true]; rfl, ?_, ?_, ?_⟩
  · simp only [engineStop, hstop]
    intro hne
    by_cases hcs : st.currentsong = song
    · simp [hcs] at hne
    · simp only [hcs, if_false] at hne ⊢
      simp only [heapSet, hcs, if_false]
      exact i1 hne
  · simp only [engineStop, hstop, if_true]
    exact i2.filter _
  · simp only [engineStop, hstop, if_true]
    intro p hp
    simp only [List.mem_filter, decide_eq_true_eq] at hp
    obtain ⟨hp1, hp2⟩ := hp
    obtain ⟨hne, c, hc, hcp⟩ := i3 p hp1
    have hcs : st.currentsong ≠ song := by
      intro heq
      rw [heq, hsome] at hc
      cases hc
      exact hp2 hcp.symm
    simp only [hcs, if_false, heapSet]
    exact ⟨hne, c, hc, hcp⟩

theorem Inv_start (st : World) (song : Nat) (env : StartEnv) (hinv : Inv st)
    (hok : opOk st (.start song env) = true) :
    ∃ st', native_midi_start st song env = some st' ∧ Inv st' := by
  obtain ⟨i1, i2, i3⟩ := hinv
  by_cases hs : song = 0
  · exact ⟨st, by simp [native_midi_start, hs], i1, i2, i3⟩
  simp only [opOk, hs, decide_False, Bool.false_or, Bool.and_eq_true, Bool.or_eq_true,
    decide_eq_true_eq, Option.isSome_iff_exists] at hok
  obtain ⟨⟨⟨s, hsome⟩, hstart⟩, hstop⟩ := hok
  by_cases hcur : st.currentsong = 0
  · have hnil : st.running = [] := by
      cases hr : st.running with
      | nil => rfl
      | cons p t => exact absurd hcur (i3 p (by simp [hr])).1
    refine ⟨_, (by simp only [native_midi_start, hs, hcur, hsome, ne_eq, not_true_eq_false, if_false]; rfl), ?_, ?_, ?_⟩
    · intro _; exact ⟨s, hsome⟩
    · simp [engineStart, hstart, hnil]
    · intro p hp
      simp only [engineStart, hstart, hnil, if_true, List.not_mem_nil, if_false,
        List.mem_singleton] at hp
      exact ⟨hs, s, hsome, hp.symm⟩
  · obtain ⟨c, hc⟩ := i1 hcur
    have hstop' : env.stop = noErr := by
      rcases hstop with h | h
      · exact absurd h hcur
      · exact h
    have hnil : engineStop st.running c.player env.stop = [] := by
      simp only [engineStop, hstop', if_true]
      rw [List.filter_eq_nil_iff]
      intro p hp
      obtain ⟨_, c', hc', hcp⟩ := i3 p hp
      rw [hc] at hc'
      cases hc'
      simp [hcp]
    refine ⟨_, (by simp only [native_midi_start, hs, hcur, hsome, hc, ne_eq, not_false_eq_true, if_true, if_false]; rfl), ?_, ?_, ?_⟩
    · intro _; exact ⟨s, hsome⟩
    · simp [engineStart, hstart, hnil]
    · intro p hp
      simp only [hnil, engineStart, hstart, if_true, List.not_mem_nil, if_false,
        List.mem_singleton] at hp
      exact ⟨hs, s, hsome, hp.symm⟩

theorem Inv_stop (st : World) (status : OSStatus) (hinv : Inv st)
    (hok : opOk st (.stop status) = true) :
    ∃ st', native_midi_stop st status = some st' ∧ Inv st' := by
  obtain ⟨i1, i2, i3⟩ := hinv
  by_cases hcur : st.currentsong = 0
  · exact ⟨st, by simp [native_midi_stop, hcur], i1, i2, i3⟩
  · obtain ⟨c, hc⟩ := i1 hcur
    simp only [opOk, hcur, decide_False, Bool.false_or, decide_eq_true_eq] at hok
    have hnil : engineStop st.running c.player status = [] := by
      simp only [engineStop, hok, if_true]
      rw [List.filter_eq_nil_iff]
      intro p hp
      obtain ⟨_, c', hc', hcp⟩ := i3 p hp
      rw [hc] at hc'
      cases hc'
      simp [hcp]
    refine ⟨_, (by simp only [native_midi_stop, hcur, hc, ne_eq, not_false_eq_true, if_true]; rfl), ?_, ?_, ?_⟩
    · simp
    · simp [hnil]
    · simp [hnil]

theorem Inv_active (k : MusicTimeStamp) (st : World) (env : ActiveEnv) (hinv : Inv st) :
    ∃ st', (native_midi_active k st env).map Prod.fst = some st' ∧ Inv st' := by
  obtain ⟨i1, i2, i3⟩ := hinv
  by_cases hcur : st.currentsong = 0
  · exact ⟨st, by simp [native_midi_active, hcur], i1, i2, i3⟩
  · obtain ⟨c, hc⟩ := i1 hcur
    refine ⟨_, (by simp only [native_midi_active, hcur, hc, if_false, Option.map_some']; rfl), ?_⟩
    exact ⟨i1, i2, i3⟩

theorem Inv_step (k : MusicTimeStamp) (st : World) (op : Op) (hinv : Inv st)
    (hok : opOk st op = true) : ∃ st', step k st op = some st' ∧ Inv st' := by
  cases op with
  | load env => exact ⟨_, rfl, Inv_load st env hinv hok⟩
  | free song env => exact Inv_free st song env hinv hok
  | start song env => exact Inv_start st song env hinv hok
  | stop status => exact Inv_stop st status hinv hok
  | active env => exact Inv_active k st env hinv

theorem Inv_run (k : MusicTimeStamp) (ops : List Op) :
    ∀ st, Inv st → valid k st ops = true → ∃ st', run k st ops = some st' ∧ Inv st' := by
  induction ops with
  | nil => intro st hinv _; exact ⟨st, rfl, hinv⟩
  | cons op ops ih =>
    intro st hinv hv
    simp only [valid, Bool.and_eq_true] at hv
    obtain ⟨hok, hrest⟩ := hv
    obtain ⟨st1, hstep, hinv1⟩ := Inv_step k st op hinv hok
    rw [hstep] at hrest
    obtain ⟨st2, hrun, hinv2⟩ := ih st1 hinv1 hrest
    exact ⟨st2, by simp [run, hstep, hrun], hinv2⟩

/-- C8: from the initial state, after any sequence of load, start, stop, free
and active calls that uses only live handles and in which the engine start and
stop calls succeed, the run is defined, at most one player is running, and a
running player is the player of the song in `currentsong`. -/
theorem at_most_one_player_running (k : MusicTimeStamp) (ops : List Op)
    (hvalid : valid k World.init ops = true) :
    ∃ st, run k World.init ops = some st ∧ st.running.length ≤ 1 ∧
      ∀ p ∈ st.running,
        st.currentsong ≠ 0 ∧ ∃ c, st.heap st.currentsong = some c ∧ c.player = p := by
  obtain ⟨st, hrun, i1, i2, i3⟩ := Inv_run k ops World.init Inv_init hvalid
  refine ⟨st, hrun, ?_, i3⟩
  apply length_le_one_of_nodup_of_all_eq _ i2
  intro x hx y hy
  obtain ⟨_, c, hc, hcx⟩ := i3 x hx
  obtain ⟨_, c', hc', hcy⟩ := i3 y hy
  rw [hc] at hc'
  cases hc'
  rw [← hcx, ← hcy]

theorem at_most_one_player_running_witness :
    ∃ st, run 1000000000 World.init sampleSession = some st ∧ st.running.length ≤ 1 ∧
      ∀ p ∈ st.running,
        st.currentsong ≠ 0 ∧ ∃ c, st.heap st.currentsong = some c ∧ c.player = p :=
  at_most_one_player_running 1000000000 sampleSession (by decide)

/-! ## The cached end time -/

theorem maxTrackLength_nonneg (len : Nat → MusicTimeStamp) (n : Nat) :
    0 ≤ maxTrackLength len n := by
  induction n with
  | zero => simp [maxTrackLength]
  | succ n ih => exact le_trans ih (le_max_left _ _)

theorem le_maxTrackLength (len : Nat → MusicTimeStamp) (n : Nat) :
    ∀ i, i < n → len i ≤ maxTrackLength len n := by
  induction n with
  | zero => intro i hi; omega
  | succ n ih =>
    intro i hi
    rcases Nat.lt_succ_iff_lt_or_eq.mp hi with h | h
    · exact le_trans (ih i h) (le_max_left _ _)
    · subst h; exact le_max_right _ _

theorem maxTrackLength_zero_or_attained (len : Nat → MusicTimeStamp) (n : Nat) :
    maxTrackLength len n = 0 ∨ ∃ i, i < n ∧ maxTrackLength len n = len i := by
  induction n with
  | zero => left; rfl
  | succ n ih =>
    rcases le_total (maxTrackLength len n) (len n) with h | h
    · right
      exact ⟨n, Nat.lt_succ_self n, by simp [maxTrackLength, max_eq_right h]⟩
    · have e : maxTrackLength len (n + 1) = maxTrackLength len n := by
        simp [maxTrackLength, max_eq_left h]
      rw [e]
      rcases ih with ih | ⟨i, hi, ih⟩
      · left; exact ih
      · right; exact ⟨i, Nat.lt_succ_of_lt hi, ih⟩

theorem maxTrackLength_attained (len : Nat → MusicTimeStamp) (n : Nat)
    (h : ∃ i, i < n ∧ 0 ≤ len i) : ∃ i, i < n ∧ maxTrackLength len n = len i := by
  rcases maxTrackLength_zero_or_attained len n with h0 | h1
  · obtain ⟨i, hi, hpos⟩ := h
    have hle := le_maxTrackLength len n i hi
    exact ⟨i, hi, le_antisymm (by rw [h0]; exact hpos) hle⟩
  · exact h1

theorem loop_out_of_ok (env : LoadEnv) (s : Nat) (k : Nat) :
    ∀ i, (∀ j, j < k → env.indTrack (i + j) = noErr ∧ env.trackProp (i + j) = noErr) →
      (GetSequenceLength.loop env s k i (maxTrackLength env.tracklen i)).out =
        some (maxTrackLength env.tracklen (i + k)) := by
  induction k with
  | zero => intro i _; simp [loop_zero]
  | succ k ih =>
    intro i hall
    have h0 := hall 0 (Nat.succ_pos k)
    simp only [Nat.add_zero] at h0
    rw [loop_succ_ok env s k i _ h0.1 h0.2]
    have hmax : (if maxTrackLength env.tracklen i < env.tracklen i then env.tracklen i
        else maxTrackLength env.tracklen i) = maxTrackLength env.tracklen (i + 1) := by
      simp only [maxTrackLength]
      split_ifs with hlt
      · exact (max_eq_right (le_of_lt hlt)).symm
      · exact (max_eq_left (not_lt.mp hlt)).symm
    simp only [hmax]
    have := ih (i + 1) (fun j hj => by
      have := hall (j + 1) (Nat.succ_lt_succ hj)
      have e : i + (j + 1) = i + 1 + j := by omega
      rw [e] at this; exact this)
    rw [this]
    congr 2
    omega

theorem loop_count_of_ok (env : LoadEnv) (s : Nat) (k : Nat) :
    ∀ i acc, (∀ j, j < k → env.indTrack (i + j) = noErr ∧ env.trackProp (i + j) = noErr) →
      ∀ x,
        (GetSequenceLength.loop env s k i acc).events.countP (Event.getsTrack x) =
          (if i ≤ x ∧ x < i + k then 1 else 0) ∧
        (GetSequenceLength.loop env s k i acc).events.countP (Event.readsLength x) =
          (if i ≤ x ∧ x < i + k then 1 else 0) := by
  induction k with
  | zero =>
    intro i acc _ x
    have : ¬ (i ≤ x ∧ x < i) := by omega
    simp [loop_zero, this]
  | succ k ih =>
    intro i acc hall x
    have h0 := hall 0 (Nat.succ_pos k)
    simp only [Nat.add_zero] at h0
    rw [loop_succ_ok env s k i _ h0.1 h0.2]
    have hrec := ih (i + 1) (if acc < env.tracklen i then env.tracklen i else acc) (fun j hj => by
      have := hall (j + 1) (Nat.succ_lt_succ hj)
      have e : i + (j + 1) = i + 1 + j := by omega
      rw [e] at this; exact this) x
    simp only [List.countP_cons, hrec.1, hrec.2, Event.getsTrack, Event.readsLength]
    by_cases hx : i = x
    · subst hx
      have h1 : ¬ (i + 1 ≤ i ∧ i < i + 1 + k) := by omega
      have h2 : i ≤ i ∧ i < i + (k + 1) := by omega
      simp [h1, h2]
    · by_cases hin : i + 1 ≤ x ∧ x < i + 1 + k
      · have h2 : i ≤ x ∧ x < i + (k + 1) := by omega
        simp [hin, h2, hx]
      · have h2 : ¬ (i ≤ x ∧ x < i + (k + 1)) := by omega
        simp [hin, h2, hx]

/-- C9: after a successful load the end time cached in the returned song is the
maximum of the lengths the engine reports for the tracks `0 .. ntracks-1` of
the sequence (it bounds every reported length and is the length of one of the
tracks as soon as one length is not negative; `0` is the value for a sequence
without tracks), and `GetSequenceLength` asks for every track index below
`ntracks`, and reads its length, exactly once, and for no other index. -/
theorem cached_endTime_is_max_track_length (st : World) (env : LoadEnv)
    (hload : (native_midi_loadsong_RW st env).2 ≠ 0) :
    ∃ c, (native_midi_loadsong_RW st env).1.heap (native_midi_loadsong_RW st env).2 = some c ∧
      c.endTime = maxTrackLength env.tracklen env.ntracks ∧
      (∀ i, i < env.ntracks → env.tracklen i ≤ c.endTime) ∧
      ((∃ i, i < env.ntracks ∧ 0 ≤ env.tracklen i) →
        ∃ i, i < env.ntracks ∧ c.endTime = env.tracklen i) ∧
      (∀ i, (newEvents st (native_midi_loadsong_RW st env).1).countP (Event.getsTrack i) =
        (if i < env.ntracks then 1 else 0)) ∧
      (∀ i, (newEvents st (native_midi_loadsong_RW st env).1).countP (Event.readsLength i) =
        (if i < env.ntracks then 1 else 0)) := by
  have hall := (load_ret_ne_zero_iff st env).1 hload
  obtain ⟨-, -, -, -, -, -, -, -, -, -, h11, h12, -⟩ := id hall
  have h12' : ∀ j, j < env.ntracks →
      env.indTrack (0 + j) = noErr ∧ env.trackProp (0 + j) = noErr := by
    intro j hj; simpa using h12 j hj
  have hout : (GetSequenceLength env env.sequence).out =
      some (maxTrackLength env.tracklen env.ntracks) := by
    have := loop_out_of_ok env env.sequence env.ntracks 0 h12'
    simp only [maxTrackLength, Nat.zero_add] at this
    simp [GetSequenceLength, h11, this]
  have hcount := loop_count_of_ok env env.sequence env.ntracks 0 0 h12'
  rw [load_ok st env hall]
  refine ⟨_, by simp [heapSet]; rfl, ?_, ?_, ?_, ?_, ?_⟩
  · simp [hout]
  · intro i hi
    simp only [hout, Option.getD_some]
    exact le_maxTrackLength env.tracklen env.ntracks i hi
  · intro h
    simp only [hout, Option.getD_some]
    exact maxTrackLength_attained env.tracklen env.ntracks h
  · intro i
    simp [newEvents, GetSequenceLength, h11, List.countP_cons, List.countP_append,
      Event.getsTrack, (hcount i).1]
  · intro i
    simp [newEvents, GetSequenceLength, h11, List.countP_cons, List.countP_append,
      Event.readsLength, (hcount i).2]

theorem cached_endTime_is_max_track_length_witness :
    ∃ c, (native_midi_loadsong_RW World.init LoadEnv.sample).1.heap
        (native_midi_loadsong_RW World.init LoadEnv.sample).2 = some c ∧
      c.endTime = maxTrackLength LoadEnv.sample.tracklen LoadEnv.sample.ntracks ∧
      (∀ i, i < LoadEnv.sample.ntracks → LoadEnv.sample.tracklen i ≤ c.endTime) ∧
      ((∃ i, i < LoadEnv.sample.ntracks ∧ 0 ≤ LoadEnv.sample.tracklen i) →
        ∃ i, i < LoadEnv.sample.ntracks ∧ c.endTime = LoadEnv.sample.tracklen i) ∧
      (∀ i, (newEvents World.init (native_midi_loadsong_RW World.init LoadEnv.sample).1).countP
          (Event.getsTrack i) = (if i < LoadEnv.sample.ntracks then 1 else 0)) ∧
      (∀ i, (newEvents World.init (native_midi_loadsong_RW World.init LoadEnv.sample).1).countP
          (Event.readsLength i) = (if i < LoadEnv.sample.ntracks then 1 else 0)) :=
  cached_endTime_is_max_track_length World.init LoadEnv.sample (by decide)

/-! ## Failure of an engine call -/

theorem fatalOK_append_queries (ps ss : List Nat) (l rest : List Event)
    (hq : ∀ e ∈ l, e.isQuery = true ∧ e.status = noErr) :
    fatalOK ps ss (l ++ rest) = fatalOK ps ss rest := by
  induction l with
  | nil => rfl
  | cons e l ih =>
    have he := hq e (by simp)
    have hn : e.newPlayers = [] ∧ e.newSequences = [] := by
      cases e <;> simp_all [Event.isQuery, Event.newPlayers, Event.newSequences]
    simp only [List.cons_append, fatalOK, he.2, ne_eq, not_true_eq_false, if_false, hn.1, hn.2,
      List.append_nil]
    exact ih (fun e' he' => hq e' (by simp [he']))

theorem loop_fail_shape (env : LoadEnv) (s k : Nat) :
    ∀ i acc, (GetSequenceLength.loop env s k i acc).err ≠ noErr →
      (GetSequenceLength.loop env s k i acc).out = none ∧
      ∃ l e, (GetSequenceLength.loop env s k i acc).events = l ++ [e] ∧
        e.status = (GetSequenceLength.loop env s k i acc).err ∧
        ∀ e' ∈ l, e'.isQuery = true ∧ e'.status = noErr := by
  induction k with
  | zero => intro i acc h; simp [loop_zero] at h
  | succ k ih =>
    intro i acc h
    by_cases h1 : env.indTrack i = noErr
    · by_cases h2 : env.trackProp i = noErr
      · rw [loop_succ_ok env s k i acc h1 h2] at h ⊢
        obtain ⟨ho, l, e, hl, he, hall⟩ := ih _ _ h
        refine ⟨ho, Event.MusicSequenceGetIndTrack s i noErr ::
          Event.MusicTrackGetProperty s i noErr :: l, e, by simp [hl], he, ?_⟩
        intro e' he'
        simp only [List.mem_cons] at he'
        rcases he' with h' | h' | h'
        · subst h'; exact ⟨rfl, rfl⟩
        · subst h'; exact ⟨rfl, rfl⟩
        · exact hall e' h'
      · rw [loop_succ_trackProp_fails env s k i acc h1 h2]
        refine ⟨rfl, [Event.MusicSequenceGetIndTrack s i (env.indTrack i)],
          Event.MusicTrackGetProperty s i (env.trackProp i), rfl, rfl, ?_⟩
        intro e' he'
        simp only [List.mem_singleton] at he'
        subst he'
        exact ⟨rfl, h1⟩
    · rw [loop_succ_indTrack_fails env s k i acc h1]
      exact ⟨rfl, [], Event.MusicSequenceGetIndTrack s i (env.indTrack i), rfl, rfl, by simp⟩

theorem loop_ok_shape (env : LoadEnv) (s k : Nat) :
    ∀ i acc, (GetSequenceLength.loop env s k i acc).err = noErr →
      ∀ e ∈ (GetSequenceLength.loop env s k i acc).events,
        e.isQuery = true ∧ e.status = noErr := by
  induction k with
  | zero => intro i acc _; simp [loop_zero]
  | succ k ih =>
    intro i acc h
    by_cases h1 : env.indTrack i = noErr
    · by_cases h2 : env.trackProp i = noErr
      · rw [loop_succ_ok env s k i acc h1 h2] at h ⊢
        intro e' he'
        simp only [List.mem_cons] at he'
        rcases he' with h' | h' | h'
        · subst h'; exact ⟨rfl, rfl⟩
        · subst h'; exact ⟨rfl, rfl⟩
        · exact ih _ _ h e' h'
      · rw [loop_succ_trackProp_fails env s k i acc h1 h2] at h
        exact absurd h h2
    · rw [loop_succ_indTrack_fails env s k i acc h1] at h
      exact absurd h h1

theorem GetSequenceLength_of_count_fails (env : LoadEnv) (s : Nat)
    (h : env.trackCount ≠ noErr) :
    GetSequenceLength env s =
      { err := env.trackCount, out := none,
        events := [.MusicSequenceGetTrackCount s env.trackCount] } := by
  simp [GetSequenceLength, h]

theorem GetSequenceLength_of_count_ok (env : LoadEnv) (s : Nat) (h : env.trackCount = noErr) :
    GetSequenceLength env s =
      { err := (GetSequenceLength.loop env s env.ntracks 0 0).err,
        out := (GetSequenceLength.loop env s env.ntracks 0 0).out,
        events := .MusicSequenceGetTrackCount s noErr ::
          (GetSequenceLength.loop env s env.ntracks 0 0).events } := by
  simp [GetSequenceLength, h]

theorem GetSequenceLength_fail_shape (env : LoadEnv) (s : Nat)
    (h : (GetSequenceLength env s).err ≠ noErr) :
    (GetSequenceLength env s).out = none ∧
    ∃ l e, (GetSequenceLength env s).events = l ++ [e] ∧
      e.status = (GetSequenceLength env s).err ∧
      ∀ e' ∈ l, e'.isQuery = true ∧ e'.status = noErr := by
  by_cases h11 : env.trackCount = noErr
  · rw [GetSequenceLength_of_count_ok env s h11] at h ⊢
    obtain ⟨ho, l, e, hl, he, hall⟩ := loop_fail_shape env s _ _ _ h
    refine ⟨ho, Event.MusicSequenceGetTrackCount s noErr :: l, e, by simp [hl], he, ?_⟩
    intro e' he'
    simp only [List.mem_cons] at he'
    rcases he' with h' | h'
    · subst h'; exact ⟨rfl, rfl⟩
    · exact hall e' h'
  · rw [GetSequenceLength_of_count_fails env s h11]
    exact ⟨rfl, [], _, rfl, rfl, by simp⟩

theorem GetSequenceLength_ok_shape (env : LoadEnv) (s : Nat)
    (h : (GetSequenceLength env s).err = noErr) :
    ∀ e ∈ (GetSequenceLength env s).events, e.isQuery = true ∧ e.status = noErr := by
  by_cases h11 : env.trackCount = noErr
  · rw [GetSequenceLength_of_count_ok env s h11] at h ⊢
    intro e' he'
    simp only [List.mem_cons] at he'
    rcases he' with h' | h'
    · subst h'; exact ⟨rfl, rfl⟩
    · exact loop_ok_shape env s _ _ _ h e' h'
  · rw [GetSequenceLength_of_count_fails env s h11] at h
    exact absurd h h11

theorem isQuery_call (e : Event) : e.call.isQuery = e.isQuery := by
  cases e <;> rfl

theorem loop_calls (env : LoadEnv) (s k : Nat) :
    ∀ i acc, ∀ e ∈ (GetSequenceLength.loop env s k i acc).events,
      ∃ j, i ≤ j ∧ (e.call = .MusicSequenceGetIndTrack s j 0 ∨
        e.call = .MusicTrackGetProperty s j 0) := by
  induction k with
  | zero => intro i acc; simp [loop_zero]
  | succ k ih =>
    intro i acc e he
    by_cases h1 : env.indTrack i = noErr
    · by_cases h2 : env.trackProp i = noErr
      · rw [loop_succ_ok env s k i acc h1 h2] at he
        simp only [List.mem_cons] at he
        rcases he with h' | h' | h'
        · subst h'; exact ⟨i, le_refl i, Or.inl rfl⟩
        · subst h'; exact ⟨i, le_refl i, Or.inr rfl⟩
        · obtain ⟨j, hj, hc⟩ := ih _ _ e h'
          exact ⟨j, by omega, hc⟩
      · rw [loop_succ_trackProp_fails env s k i acc h1 h2] at he
        simp only [List.mem_cons, List.mem_singleton, List.not_mem_nil, or_false] at he
        rcases he with h' | h'
        · subst h'; exact ⟨i, le_refl i, Or.inl rfl⟩
        · subst h'; exact ⟨i, le_refl i, Or.inr rfl⟩
    · rw [loop_succ_indTrack_fails env s k i acc h1] at he
      simp only [List.mem_singleton] at he
      subst he; exact ⟨i, le_refl i, Or.inl rfl⟩

theorem loop_onceEach (env : LoadEnv) (s k : Nat) :
    ∀ i acc, onceEach (GetSequenceLength.loop env s k i acc).events := by
  induction k with
  | zero => intro i acc; simp [loop_zero, onceEach]
  | succ k ih =>
    intro i acc
    by_cases h1 : env.indTrack i = noErr
    · by_cases h2 : env.trackProp i = noErr
      · rw [loop_succ_ok env s k i acc h1 h2]
        have hrest := ih (i + 1) (if acc < env.tracklen i then env.tracklen i else acc)
        have hc := loop_calls env s k (i + 1) (if acc < env.tracklen i then env.tracklen i else acc)
        have e1 : (Event.MusicSequenceGetIndTrack s i noErr).call =
            .MusicSequenceGetIndTrack s i 0 := rfl
        have e2 : (Event.MusicTrackGetProperty s i noErr).call =
            .MusicTrackGetProperty s i 0 := rfl
        simp only [onceEach, List.map_cons, List.nodup_cons, List.mem_cons, List.mem_map,
          e1, e2] at hrest ⊢
        refine ⟨?_, ?_, hrest⟩
        · rintro (h | ⟨e, he, hcall⟩)
          · cases h
          · obtain ⟨j, hj, hj' | hj'⟩ := hc e he
            · rw [hj'] at hcall; cases hcall; omega
            · rw [hj'] at hcall; cases hcall
        · rintro ⟨e, he, hcall⟩
          obtain ⟨j, hj, hj' | hj'⟩ := hc e he
          · rw [hj'] at hcall; cases hcall
          · rw [hj'] at hcall; cases hcall; omega
      · rw [loop_succ_trackProp_fails env s k i acc h1 h2]
        simp [onceEach, Event.call]
    · rw [loop_succ_indTrack_fails env s k i acc h1]
      simp [onceEach]

theorem GetSequenceLength_onceEach (env : LoadEnv) (s : Nat) :
    onceEach (GetSequenceLength env s).events := by
  by_cases h11 : env.trackCount = noErr
  · rw [GetSequenceLength_of_count_ok env s h11]
    have hrest := loop_onceEach env s env.ntracks 0 0
    have hc := loop_calls env s env.ntracks 0 0
    have e1 : (Event.MusicSequenceGetTrackCount s noErr).call =
        .MusicSequenceGetTrackCount s 0 := rfl
    simp only [onceEach, List.map_cons, List.nodup_cons, List.mem_map, e1] at hrest ⊢
    refine ⟨?_, hrest⟩
    rintro ⟨e, he, hcall⟩
    obtain ⟨j, hj, hj' | hj'⟩ := hc e he
    · rw [hj'] at hcall; cases hcall
    · rw [hj'] at hcall; cases hcall
  · rw [GetSequenceLength_of_count_fails env s h11]
    simp [onceEach]

theorem onceEach_around_queries (A G B : List Event) (hG : onceEach G)
    (hq : ∀ e ∈ G, e.isQuery = true) (hA : ∀ e ∈ A, e.isQuery = false)
    (hB : ∀ e ∈ B, e.isQuery = false) (hAB : onceEach (A ++ B)) : onceEach (A ++ G ++ B) := by
  simp only [onceEach, List.map_append, List.nodup_append, List.disjoint_left, List.mem_map,
    List.mem_append] at hG hAB ⊢
  obtain ⟨hAn, hBn, hdis⟩ := hAB
  refine ⟨⟨hAn, hG, ?_⟩, hBn, ?_⟩
  · rintro c ⟨a, ha, rfl⟩ ⟨g, hg, hgc⟩
    have h1 := hq g hg
    have h2 := hA a ha
    rw [← isQuery_call, hgc, isQuery_call] at h1
    rw [h1] at h2; cases h2
  · rintro c (⟨a, ha, rfl⟩ | ⟨g, hg, rfl⟩) hb
    · exact hdis ⟨a, ha, rfl⟩ hb
    · obtain ⟨b, hb', hbc⟩ := hb
      have h1 := hq g hg
      have h2 := hB b hb'
      rw [← isQuery_call, hbc, isQuery_call] at h2
      rw [h1] at h2; cases h2

theorem newEvents_eq (st st' : World) (t : List Event) (h : st'.trace = st.trace ++ t) :
    newEvents st st' = t := by
  simp [newEvents, h]

theorem load_ok_events (st : World) (env : LoadEnv) (h : env.allSucceed) :
    newEvents st (native_midi_loadsong_RW st env).1 =
      [Event.NewMusicPlayer noErr env.player, Event.NewMusicSequence noErr env.sequence,
        Event.free_buf env.buf,
        Event.MusicSequenceLoadSMFDataWithFlags env.sequence env.data noErr,
        Event.CFRelease env.data] ++ (GetSequenceLength env env.sequence).events ++
      [Event.MusicPlayerSetSequence env.player env.sequence noErr] := by
  rw [load_ok st env h]
  exact newEvents_eq _ _ _ rfl

theorem load_onceEach (st : World) (env : LoadEnv) (hvalid : env.handlesValid) :
    onceEach (newEvents st (native_midi_loadsong_RW st env).1) := by
  have hG := GetSequenceLength_onceEach env env.sequence
  have hq := GetSequenceLength_events_isQuery env env.sequence
  by_cases hall : env.allSucceed
  · rw [load_ok_events st env hall]
    apply onceEach_around_queries _ _ _ hG hq
    · intro e he; simp at he; rcases he with h | h | h | h | h <;> subst h <;> rfl
    · intro e he; simp at he; subst he; rfl
    · simp [onceEach, Event.call]
  · obtain ⟨-, -, -, hshape⟩ := load_fail_shape st env hvalid hall
    rcases hshape with h | h | ⟨-, h⟩ | ⟨-, h⟩ | h | ⟨-, h⟩ | ⟨-, h⟩ | ⟨-, -, h⟩
    · rw [h]; simp [onceEach]
    · rw [h]; simp [onceEach]
    · rw [h]; simp [onceEach, Event.call]
    · rw [h]; simp [onceEach, Event.call]
    · rw [h]; simp [onceEach, Event.call]
    · rw [h]; simp [onceEach, Event.call]
    · rw [h]
      apply onceEach_around_queries _ _ _ hG hq
      · intro e he; simp at he; rcases he with h | h | h | h | h <;> subst h <;> rfl
      · intro e he; simp at he; rcases he with h | h <;> subst h <;> rfl
      · simp [onceEach, Event.call]
    · rw [h]
      apply onceEach_around_queries _ _ _ hG hq
      · intro e he; simp at he; rcases he with h | h | h | h | h <;> subst h <;> rfl
      · intro e he; simp at he; rcases he with h | h | h <;> subst h <;> rfl
      · simp [onceEach, Event.call]

theorem load_fatalOK (st : World) (env : LoadEnv) (hvalid : env.handlesValid) :
    fatalOK [] [] (newEvents st (native_midi_loadsong_RW st env).1) = true := by
  by_cases hall : env.allSucceed
  · rw [load_ok_events st env hall]
    have hg : (GetSequenceLength env env.sequence).err = noErr :=
      (GetSequenceLength_err_noErr_iff env env.sequence).2 ⟨hall.2.2.2.2.2.2.2.2.2.2.1,
        hall.2.2.2.2.2.2.2.2.2.2.2.1⟩
    have hq := GetSequenceLength_ok_shape env env.sequence hg
    simp [fatalOK, Event.status, Event.newPlayers, Event.newSequences,
      fatalOK_append_queries _ _ _ _ hq]
  · obtain ⟨-, -, -, hshape⟩ := load_fail_shape st env hvalid hall
    rcases hshape with h | h | ⟨hne, h⟩ | ⟨hne, h⟩ | h | ⟨hne, h⟩ | ⟨hne, h⟩ | ⟨hg, hne, h⟩
    · rw [h]; simp [fatalOK]
    · rw [h]; simp [fatalOK, Event.status, Event.newPlayers, Event.newSequences]
    · rw [h]; simp [fatalOK, Event.status, okAfterFailure, hne]
    · rw [h]; simp [fatalOK, Event.status, Event.newPlayers, Event.newSequences, okAfterFailure, hne]
    · rw [h]; simp [fatalOK, Event.status, Event.newPlayers, Event.newSequences, okAfterFailure]
    · rw [h]; simp [fatalOK, Event.status, Event.newPlayers, Event.newSequences, okAfterFailure, hne]
    · rw [h]
      obtain ⟨-, l, e, hl, he, hq⟩ := GetSequenceLength_fail_shape env env.sequence hne
      rw [hl]
      have he' : e.status ≠ noErr := by rw [he]; exact hne
      simp [fatalOK, Event.status, Event.newPlayers, Event.newSequences,
        fatalOK_append_queries _ _ _ _ hq, he', okAfterFailure]
    · rw [h]
      have hq := GetSequenceLength_ok_shape env env.sequence hg
      simp [fatalOK, Event.status, Event.newPlayers, Event.newSequences,
        fatalOK_append_queries _ _ _ _ hq, hne, okAfterFailure]

/-- C10, as the code has it: in `native_midi_loadsong_RW` (with
`GetSequenceLength`), `native_midi_stop` and `native_midi_active` no call is
attempted twice, and after the first engine call that answers a non-success
status no engine call follows other than disposals of objects the operation
constructed before; a failing `GetSequenceLength` ends with the failing call,
returns its status and stores nothing.  `native_midi_start` and
`native_midi_freesong` attempt no call twice either, but do not consult the
status of their stop-player call: whatever the engine answered, start issues
start-player on the new song, and free issues the disposals of the sequence and
of the player of the song. -/
theorem engine_failure_is_fatal_except_after_stop (k : MusicTimeStamp) (st : World)
    (lenv : LoadEnv) (song : Nat) (c : NativeMidiSong) (fenv : FreeEnv) (senv : StartEnv)
    (status : OSStatus) (aenv : ActiveEnv)
    (hvalid : lenv.handlesValid) (hsong : song ≠ 0) (hlive : st.heap song = some c)
    (hcur : st.currentsong ≠ 0 → ∃ a, st.heap st.currentsong = some a) :
    (fatalOK [] [] (newEvents st (native_midi_loadsong_RW st lenv).1) = true ∧
      onceEach (newEvents st (native_midi_loadsong_RW st lenv).1)) ∧
    (∀ s, (GetSequenceLength lenv s).err ≠ noErr →
      (GetSequenceLength lenv s).out = none ∧
      ∃ l e, (GetSequenceLength lenv s).events = l ++ [e] ∧
        e.status = (GetSequenceLength lenv s).err ∧ ∀ e' ∈ l, e'.status = noErr) ∧
    (∃ st', native_midi_stop st status = some st' ∧
      fatalOK [] [] (newEvents st st') = true ∧ onceEach (newEvents st st')) ∧
    (∃ r, native_midi_active k st aenv = some r ∧
      fatalOK [] [] (newEvents st r.1) = true ∧ onceEach (newEvents st r.1)) ∧
    (∃ st', native_midi_start st song senv = some st' ∧ onceEach (newEvents st st') ∧
      Event.MusicPlayerStart c.player senv.start ∈ newEvents st st') ∧
    (∃ st', native_midi_freesong st song fenv = some st' ∧ onceEach (newEvents st st') ∧
      newEvents st st' =
        [Event.MusicPlayerStop c.player fenv.stop,
         Event.DisposeMusicSequence c.sequence fenv.disposeSequence,
         Event.DisposeMusicPlayer c.player fenv.disposePlayer]) := by
  refine ⟨⟨load_fatalOK st lenv hvalid, load_onceEach st lenv hvalid⟩, ?_, ?_, ?_, ?_, ?_⟩
  · intro s hs
    obtain ⟨ho, l, e, hl, he, hq⟩ := GetSequenceLength_fail_shape lenv s hs
    exact ⟨ho, l, e, hl, he, fun e' he' => (hq e' he').2⟩
  · by_cases h0 : st.currentsong = 0
    · exact ⟨st, by simp [native_midi_stop, h0], by simp [newEvents, fatalOK],
        by simp [newEvents, onceEach]⟩
    · obtain ⟨a, ha⟩ := hcur h0
      refine ⟨_, (by simp only [native_midi_stop, h0, ha, ne_eq, not_false_eq_true, if_true]; rfl), ?_, ?_⟩
      · simp [newEvents, fatalOK, Event.status, Event.newPlayers, Event.newSequences,
          okAfterFailure]
      · simp [newEvents, onceEach, Event.call]
  · by_cases h0 : st.currentsong = 0
    · exact ⟨(st, false), by simp [native_midi_active, h0], by simp [newEvents, fatalOK],
        by simp [newEvents, onceEach]⟩
    · obtain ⟨a, ha⟩ := hcur h0
      refine ⟨_, (by simp only [native_midi_active, h0, ha, if_false]; rfl), ?_, ?_⟩
      · simp [newEvents, fatalOK, Event.status, Event.newPlayers, Event.newSequences,
          okAfterFailure]
      · simp [newEvents, onceEach, Event.call]
  · by_cases h0 : st.currentsong = 0
    · refine ⟨_, (by simp only [native_midi_start, hsong, h0, hlive, ne_eq, not_true_eq_false, if_false]; rfl), ?_, ?_⟩
      · simp [newEvents, onceEach, Event.call]
      · simp [newEvents]
    · obtain ⟨a, ha⟩ := hcur h0
      refine ⟨_, (by simp only [native_midi_start, hsong, h0, hlive, ha, ne_eq, not_false_eq_true, if_true, if_false]; rfl), ?_, ?_⟩
      · simp [newEvents, onceEach, Event.call]
      · simp [newEvents]
  · refine ⟨_, (by simp only [native_midi_freesong, hsong, hlive, ne_eq, not_false_eq_true, if_true]; rfl), ?_, ?_⟩
    · simp [newEvents, onceEach, Event.call]
    · simp [newEvents]

theorem engine_failure_is_fatal_except_after_stop_witness :
    (fatalOK [] []
        (newEvents World.playing (native_midi_loadsong_RW World.playing LoadEnv.failingTrack).1) =
        true ∧
      onceEach
        (newEvents World.playing (native_midi_loadsong_RW World.playing LoadEnv.failingTrack).1)) ∧
    (∀ s, (GetSequenceLength LoadEnv.failingTrack s).err ≠ noErr →
      (GetSequenceLength LoadEnv.failingTrack s).out = none ∧
      ∃ l e, (GetSequenceLength LoadEnv.failingTrack s).events = l ++ [e] ∧
        e.status = (GetSequenceLength LoadEnv.failingTrack s).err ∧ ∀ e' ∈ l, e'.status = noErr) ∧
    (∃ st', native_midi_stop World.playing (-50) = some st' ∧
      fatalOK [] [] (newEvents World.playing st') = true ∧
      onceEach (newEvents World.playing st')) ∧
    (∃ r, native_midi_active 1000000000 World.playing { status := -50, time := 4 } = some r ∧
      fatalOK [] [] (newEvents World.playing r.1) = true ∧
      onceEach (newEvents World.playing r.1)) ∧
    (∃ st', native_midi_start World.playing 2 { stop := -50, start := noErr } = some st' ∧
      onceEach (newEvents World.playing st') ∧
      Event.MusicPlayerStart 9 noErr ∈ newEvents World.playing st') ∧
    (∃ st', native_midi_freesong World.playing 2
        { stop := -50, disposeSequence := noErr, disposePlayer := noErr } = some st' ∧
      onceEach (newEvents World.playing st') ∧
      newEvents World.playing st' =
        [Event.MusicPlayerStop 9 (-50), Event.DisposeMusicSequence 11 noErr,
         Event.DisposeMusicPlayer 9 noErr]) :=
  engine_failure_is_fatal_except_after_stop 1000000000 World.playing LoadEnv.failingTrack 2
    { player := 9, sequence := 11, endTime := 20 }
    { stop := -50, disposeSequence := noErr, disposePlayer := noErr }
    { stop := -50, start := noErr } (-50) { status := -50, time := 4 }
    (by decide) (by decide) (by decide)
    (fun _ => ⟨{ player := 7, sequence := 8, endTime := 10 }, by decide⟩)

/-- C10 as stated fails in `native_midi_start` and in `native_midi_freesong`.
When song 1 is active and the engine answers `-50` to the stop-player call on
its player, starting song 2 still issues start-player on player 9.  When the
engine answers `-50` to the stop-player call of freeing song 2, the free still
issues dispose-sequence on 11 and dispose-player on 9, objects this operation
did not construct.  Neither trace passes `fatalOK [] []`. -/
theorem start_and_free_continue_after_failed_stop :
    ((native_midi_start World.playing 2 { stop := -50, start := noErr }).map
        (newEvents World.playing) =
      some [Event.SDL_PauseAudio 1, Event.SDL_UnlockAudio, Event.MusicPlayerStop 7 (-50),
            Event.MusicPlayerStart 9 noErr, Event.SDL_LockAudio, Event.SDL_PauseAudio 0] ∧
     (native_midi_start World.playing 2 { stop := -50, start := noErr }).map
        (fun st' => fatalOK [] [] (newEvents World.playing st')) = some false) ∧
    ((native_midi_freesong World.playing 2
        { stop := -50, disposeSequence := noErr, disposePlayer := noErr }).map
        (newEvents World.playing) =
      some [Event.MusicPlayerStop 9 (-50), Event.DisposeMusicSequence 11 noErr,
            Event.DisposeMusicPlayer 9 noErr] ∧
     (native_midi_freesong World.playing 2
        { stop := -50, disposeSequence := noErr, disposePlayer := noErr }).map
        (fun st' => fatalOK [] [] (newEvents World.playing st')) = some false) := by
  decide

end NativeMidi
